import Mathlib

/-!
Verification of the pushkind-crawlers job pipeline

A shallow embedding, in Lean 4, of the parts of the `pushkind-crawlers`
repository that the frozen claims C1..C10 talk about:

* the product canonicaliser (`src/crawlers/mod.rs`): `build_new_product`,
  `parse_amount_units`;
* the embedding cache and top-k search (`src/processing/embedding.rs`):
  `load_or_generate_embedding`, `normalize_embedding`, `search_top_k`;
* the benchmark matcher (`src/processing/benchmark.rs`):
  `process_benchmark`, `process_benchmark_message`;
* the category matcher and the per-tenant processing guard
  (`src/processing/category.rs`): `process_product_category_match`,
  `run_with_hub_processing_guard`;
* the repository write operations (`src/repository/category.rs`,
  `src/repository/product.rs`, `src/repository/benchmark.rs`):
  `set_product_category_automatic`, `clear_product_categories_by_crawler`,
  `update_products`, `replace_product_images`.

Modelling conventions:

* Machine floats (`f32`, `f64`) are modelled by `FloatVal`: an exact rational
  value, or one of the three non-finite IEEE values.  Arithmetic on finite
  values is exact rational arithmetic (the claims under scrutiny never hinge
  on rounding); the non-finite propagation rules follow IEEE-754.
* Byte blobs are `List Nat` (each entry a byte value); the `bytemuck`
  reinterpretation of a byte slice as `f32`s is the little-endian IEEE-754
  binary32 decoding `castSliceF32`, which is `none` exactly when the length
  is not a multiple of 4 (where `bytemuck::cast_slice` panics).
* Database side effects are modelled by explicit write-event logs, and
  fallible repository calls by success flags / `Except` oracles supplied in
  an environment record; a failed call performs no write.
* The `usearch` vector index and the external `pushkind_dantes` validator
  types are not part of this repository's sources; the definitions standing
  in for them carry a doc comment starting with "Modelled from the spec:".
-/

/-- An exact rational number in canonical form (numerator and positive
denominator coprime).  Used instead of `ℚ` so that every concrete run of the
embedded code can be checked by `decide`: all operations below reduce inside
the kernel. -/
structure Frac where
  num : ℤ
  den : ℕ
deriving DecidableEq

namespace Frac

/-- Build the canonical fraction `n / d` for a positive denominator `d`. -/
def normNat (n : ℤ) (d : ℕ) : Frac :=
  if d = 0 then ⟨0, 1⟩
  else
    let g := Nat.gcd n.natAbs d
    ⟨n / (g : ℤ), d / g⟩

/-- Build the canonical fraction `n / d` for an arbitrary integer
denominator. -/
def mk' (n d : ℤ) : Frac :=
  if d < 0 then normNat (-n) (-d).toNat else normNat n d.toNat

def ofInt (n : ℤ) : Frac := ⟨n, 1⟩

instance (n : ℕ) : OfNat Frac n := ⟨⟨(n : ℤ), 1⟩⟩

def add (x y : Frac) : Frac := normNat (x.num * y.den + y.num * x.den) (x.den * y.den)

def sub (x y : Frac) : Frac := normNat (x.num * y.den - y.num * x.den) (x.den * y.den)

def mul (x y : Frac) : Frac := normNat (x.num * y.num) (x.den * y.den)

def neg (x : Frac) : Frac := ⟨-x.num, x.den⟩

/-- Division; division by zero yields `0` (callers guard the zero case). -/
def div (x y : Frac) : Frac := mk' (x.num * y.den) (x.den * y.num)

/-- Strict order, decided by cross-multiplication. -/
def blt (x y : Frac) : Bool := x.num * y.den < y.num * x.den

/-- Non-strict order, decided by cross-multiplication. -/
def ble (x y : Frac) : Bool := x.num * y.den ≤ y.num * x.den

/-- Exact `10 ^ e` for an integer exponent. -/
def pow10 (e : ℤ) : Frac :=
  if e < 0 then ⟨1, 10 ^ (-e).toNat⟩ else ⟨(10 : ℤ) ^ e.toNat, 1⟩

end Frac

/-- Exact-value model of an IEEE-754 floating point number (`f32`/`f64`):
a finite value is carried as the exact rational it denotes. -/
inductive FloatVal where
  | fin (q : Frac)
  | posInf
  | negInf
  | nan
deriving DecidableEq

namespace FloatVal

/-- Rust `is_finite` of the IEEE value. -/
def isFinite : FloatVal → Bool
  | fin _ => true
  | _ => false

/-- IEEE addition (exact on finite values). -/
def fadd : FloatVal → FloatVal → FloatVal
  | nan, _ => nan
  | _, nan => nan
  | posInf, negInf => nan
  | negInf, posInf => nan
  | posInf, _ => posInf
  | _, posInf => posInf
  | negInf, _ => negInf
  | _, negInf => negInf
  | fin a, fin b => fin (a.add b)

/-- IEEE subtraction (exact on finite values). -/
def fsub : FloatVal → FloatVal → FloatVal
  | nan, _ => nan
  | _, nan => nan
  | posInf, posInf => nan
  | negInf, negInf => nan
  | posInf, _ => posInf
  | _, posInf => negInf
  | negInf, _ => negInf
  | _, negInf => posInf
  | fin a, fin b => fin (a.sub b)

/-- IEEE multiplication (exact on finite values; `inf * 0 = nan`). -/
def fmul : FloatVal → FloatVal → FloatVal
  | nan, _ => nan
  | _, nan => nan
  | posInf, posInf => posInf
  | posInf, negInf => negInf
  | negInf, posInf => negInf
  | negInf, negInf => posInf
  | posInf, fin b => if 0 < b.num then posInf else if b.num < 0 then negInf else nan
  | fin a, posInf => if 0 < a.num then posInf else if a.num < 0 then negInf else nan
  | negInf, fin b => if 0 < b.num then negInf else if b.num < 0 then posInf else nan
  | fin a, negInf => if 0 < a.num then negInf else if a.num < 0 then posInf else nan
  | fin a, fin b => fin (a.mul b)

/-- IEEE division (exact on finite values; division by zero gives a signed
infinity, `0/0` and `inf/inf` give `nan`; the sign of zero is not modelled). -/
def fdiv : FloatVal → FloatVal → FloatVal
  | nan, _ => nan
  | _, nan => nan
  | posInf, posInf => nan
  | posInf, negInf => nan
  | negInf, posInf => nan
  | negInf, negInf => nan
  | posInf, fin b => if b.num < 0 then negInf else posInf
  | negInf, fin b => if b.num < 0 then posInf else negInf
  | fin _, posInf => fin 0
  | fin _, negInf => fin 0
  | fin a, fin b =>
    if b.num = 0 then (if a.num = 0 then nan else if 0 < a.num then posInf else negInf)
    else fin (a.div b)

/-- IEEE strict `<` as a Bool: any comparison with `nan` is `false`. -/
def fblt : FloatVal → FloatVal → Bool
  | nan, _ => false
  | _, nan => false
  | fin a, fin b => a.blt b
  | negInf, negInf => false
  | negInf, _ => true
  | _, negInf => false
  | posInf, _ => false
  | fin _, posInf => true

end FloatVal

/-- Sum of squares of a float vector, folded left from `0.0` the way
`iter().map(|x| x * x).sum::<f32>()` does. -/
def sumSqF (v : List FloatVal) : FloatVal :=
  v.foldl (fun acc x => FloatVal.fadd acc (FloatVal.fmul x x)) (FloatVal.fin 0)

/-- Dot product of two float vectors (used only by the spec-modelled
cosine-distance of the external `usearch` index). -/
def dotF (a b : List FloatVal) : FloatVal :=
  (List.zipWith FloatVal.fmul a b).foldl FloatVal.fadd (FloatVal.fin 0)

/-- Modelled from the spec: decode one little-endian IEEE-754 binary32 value
from four bytes (the byte layout `bytemuck` reinterprets, external to this
repository). -/
def decodeF32 (b0 b1 b2 b3 : Nat) : FloatVal :=
  let bits : ℕ := b0 % 256 + 256 * (b1 % 256) + 65536 * (b2 % 256) + 16777216 * (b3 % 256)
  let sgn : ℕ := bits / 2 ^ 31
  let ex : ℕ := (bits / 2 ^ 23) % 256
  let frac : ℕ := bits % 2 ^ 23
  if ex = 255 then
    if frac = 0 then (if sgn = 1 then FloatVal.negInf else FloatVal.posInf)
    else FloatVal.nan
  else
    let mag : Frac :=
      if ex = 0 then Frac.normNat (frac : ℤ) (2 ^ 149)
      else if ex ≤ 150 then Frac.normNat ((2 ^ 23 + frac : ℕ) : ℤ) (2 ^ (150 - ex))
      else Frac.ofInt (((2 ^ 23 + frac : ℕ) : ℤ) * 2 ^ (ex - 150))
    FloatVal.fin (if sgn = 1 then mag.neg else mag)

/-- Modelled from the spec: `bytemuck::cast_slice::<u8, f32>` on a byte blob
(external to this repository) — reinterpret as a vector of 32-bit floats;
`none` models the panic on a length that is not a multiple of four. -/
def castSliceF32 : List Nat → Option (List FloatVal)
  | [] => some []
  | b0 :: b1 :: b2 :: b3 :: rest => (castSliceF32 rest).map (decodeF32 b0 b1 b2 b3 :: ·)
  | _ :: _ => none

/-! ## The amount/units parser (`src/crawlers/mod.rs`, `parse_amount_units`) -/

/-- The Unicode `White_Space` property on a code point, as used by Rust's
`char::is_whitespace` (hence `str::trim_start` and `str::split_whitespace`)
and by the regex crate's `\s` (`\p{White_Space}`): U+0009..U+000D, U+0020,
U+0085, U+00A0, U+1680, U+2000..U+200A, U+2028, U+2029, U+202F, U+205F,
U+3000. -/
def isWsCode (n : ℕ) : Bool :=
  (9 ≤ n && n ≤ 13) || n == 32 || n == 133 || n == 160 || n == 5760 ||
  (8192 ≤ n && n ≤ 8202) || n == 8232 || n == 8233 || n == 8239 || n == 8287 ||
  n == 12288

/-- The Unicode `White_Space` property on a character. -/
def isWsChar (c : Char) : Bool :=
  isWsCode c.toNat

/-- The Unicode general category `Nd` (decimal digit) on a code point, the
class the regex crate gives to `\d` (`\p{Nd}`); Unicode 16.0 tables.  Each
line lists script digit blocks by their decimal code-point ranges. -/
def isNdCode (n : ℕ) : Bool :=
  (48 ≤ n && n ≤ 57) ||
  (1632 ≤ n && n ≤ 1641) || (1776 ≤ n && n ≤ 1785) || (1984 ≤ n && n ≤ 1993) ||
  (2406 ≤ n && n ≤ 2415) || (2534 ≤ n && n ≤ 2543) || (2662 ≤ n && n ≤ 2671) ||
  (2790 ≤ n && n ≤ 2799) || (2918 ≤ n && n ≤ 2927) || (3046 ≤ n && n ≤ 3055) ||
  (3174 ≤ n && n ≤ 3183) || (3302 ≤ n && n ≤ 3311) || (3430 ≤ n && n ≤ 3439) ||
  (3558 ≤ n && n ≤ 3567) || (3664 ≤ n && n ≤ 3673) || (3792 ≤ n && n ≤ 3801) ||
  (3872 ≤ n && n ≤ 3881) || (4160 ≤ n && n ≤ 4169) || (4240 ≤ n && n ≤ 4249) ||
  (6112 ≤ n && n ≤ 6121) || (6160 ≤ n && n ≤ 6169) || (6470 ≤ n && n ≤ 6479) ||
  (6608 ≤ n && n ≤ 6617) || (6784 ≤ n && n ≤ 6793) || (6800 ≤ n && n ≤ 6809) ||
  (6992 ≤ n && n ≤ 7001) || (7088 ≤ n && n ≤ 7097) || (7232 ≤ n && n ≤ 7241) ||
  (7248 ≤ n && n ≤ 7257) ||
  (42528 ≤ n && n ≤ 42537) || (43216 ≤ n && n ≤ 43225) ||
  (43264 ≤ n && n ≤ 43273) || (43472 ≤ n && n ≤ 43481) ||
  (43504 ≤ n && n ≤ 43513) || (43600 ≤ n && n ≤ 43609) ||
  (44016 ≤ n && n ≤ 44025) || (65296 ≤ n && n ≤ 65305) ||
  (66720 ≤ n && n ≤ 66729) || (68912 ≤ n && n ≤ 68921) ||
  (68928 ≤ n && n ≤ 68937) || (69734 ≤ n && n ≤ 69743) ||
  (69872 ≤ n && n ≤ 69881) || (69942 ≤ n && n ≤ 69951) ||
  (70096 ≤ n && n ≤ 70105) || (70384 ≤ n && n ≤ 70393) ||
  (70736 ≤ n && n ≤ 70745) || (70864 ≤ n && n ≤ 70873) ||
  (71248 ≤ n && n ≤ 71257) || (71360 ≤ n && n ≤ 71369) ||
  (71376 ≤ n && n ≤ 71395) || (71472 ≤ n && n ≤ 71481) ||
  (71904 ≤ n && n ≤ 71913) || (72016 ≤ n && n ≤ 72025) ||
  (72688 ≤ n && n ≤ 72697) || (72784 ≤ n && n ≤ 72793) ||
  (73040 ≤ n && n ≤ 73049) || (73120 ≤ n && n ≤ 73129) ||
  (73552 ≤ n && n ≤ 73561) || (92768 ≤ n && n ≤ 92777) ||
  (92864 ≤ n && n ≤ 92873) || (93008 ≤ n && n ≤ 93017) ||
  (93552 ≤ n && n ≤ 93561) || (118000 ≤ n && n ≤ 118009) ||
  (120782 ≤ n && n ≤ 120831) || (123200 ≤ n && n ≤ 123209) ||
  (123632 ≤ n && n ≤ 123641) || (124144 ≤ n && n ≤ 124153) ||
  (124401 ≤ n && n ≤ 124410) || (125264 ≤ n && n ≤ 125273) ||
  (130032 ≤ n && n ≤ 130041)

/-- The regex crate's `\d` (`\p{Nd}`) on a character. -/
def isNdChar (c : Char) : Bool :=
  isNdCode c.toNat

/-- The unit-tail class of the source regex
`(?i)^\s*(\d+(?:[.,]\d+)?)([a-zа-я%]*)\s*$` on a code point: `a-z` (97..122)
and `а-я` (1072..1103), closed under the regex crate's `(?i)` Unicode simple
case folding — which adds `A-Z` (65..90), `А-Я` (1040..1071), the Cyrillic
Extended-C letters U+1C80..U+1C86 (7296..7302, they case-fold into
в/д/о/с/т/ъ), the long s U+017F (383) and the Kelvin sign U+212A (8490) —
plus the percent sign (37). -/
def rustTailCode (n : ℕ) : Bool :=
  (97 ≤ n && n ≤ 122) || (65 ≤ n && n ≤ 90) ||
  (1072 ≤ n && n ≤ 1103) || (1040 ≤ n && n ≤ 1071) ||
  (7296 ≤ n && n ≤ 7302) || n == 383 || n == 8490 || n == 37

/-- The unit-tail class of the source regex on a character. -/
def rustUnitTailChar (c : Char) : Bool :=
  rustTailCode c.toNat

/-- Modelled from the spec: the unit-tail class `[\p{L}%]` of the spec's regex
`^\s*([0-9]+(?:[.,][0-9]+)?)([\p{L}%]*)\s*$` — any Unicode letter or percent
sign.  Full Unicode letter tables are out of scope; the class is restricted
to the source's class plus the whole Cyrillic block U+0400..U+04FF (which,
unlike the source's `а-я`, contains `ё`). -/
def specUnitTailChar (c : Char) : Bool :=
  rustUnitTailChar c || (1024 ≤ c.toNat && c.toNat ≤ 1279)

/-- Numeric value of a list of decimal digit characters, most significant
first. -/
def digitsVal (l : List Char) : ℕ :=
  l.foldl (fun acc c => 10 * acc + (c.toNat - '0'.toNat)) 0

/-- Replace every comma by a dot (`.replace(',', ".")`). -/
def replaceCommas (s : List Char) : List Char :=
  s.map (fun c => if c == ',' then '.' else c)

/-- Case-insensitive comparison of a character list with a keyword. -/
def ciEq (s : List Char) (t : String) : Bool :=
  s.map Char.toLower == t.toList

/-- Rust's `str::parse::<f64>` (`f64::from_str`): optional sign, then
`inf`/`infinity`/`nan` (case-insensitively) or a decimal mantissa with at
least one ASCII digit and an optional exponent; any other character (a
non-ASCII digit included) makes the parse fail.  Finite results are modelled
by their exact value. -/
def rustParseF64 (s : List Char) : Option FloatVal :=
  let (sgnNeg, rest) :=
    match s with
    | '+' :: r => (false, r)
    | '-' :: r => (true, r)
    | r => (false, r)
  if ciEq rest "inf" || ciEq rest "infinity" then
    some (if sgnNeg then FloatVal.negInf else FloatVal.posInf)
  else if ciEq rest "nan" then
    some FloatVal.nan
  else
    let (ip, r1) := rest.span Char.isDigit
    let (fp, r2) :=
      match r1 with
      | '.' :: r => r.span Char.isDigit
      | _ => (([] : List Char), r1)
    if ip.isEmpty && fp.isEmpty then none
    else
      let mant : Frac :=
        Frac.add (Frac.ofInt (digitsVal ip)) (Frac.normNat (digitsVal fp) (10 ^ fp.length))
      match r2 with
      | [] => some (FloatVal.fin (if sgnNeg then mant.neg else mant))
      | e :: r3 =>
        if e == 'e' || e == 'E' then
          let (eNeg, r4) :=
            match r3 with
            | '+' :: r => (false, r)
            | '-' :: r => (true, r)
            | r => (false, r)
          let (ed, r5) := r4.span Char.isDigit
          if ed.isEmpty || !r5.isEmpty then none
          else
            let ev : ℤ := if eNeg then -(digitsVal ed : ℤ) else (digitsVal ed : ℤ)
            some (FloatVal.fin (Frac.mul (if sgnNeg then mant.neg else mant) (Frac.pow10 ev)))
        else none

/-- Split a character list on whitespace, discarding empty tokens
(`str::split_whitespace`); `acc` holds the current token, reversed. -/
def splitWsAux : List Char → List Char → List (List Char)
  | [], acc => if acc.isEmpty then [] else [acc.reverse]
  | c :: rest, acc =>
    if isWsChar c then
      if acc.isEmpty then splitWsAux rest []
      else acc.reverse :: splitWsAux rest []
    else splitWsAux rest (c :: acc)

/-- Split a character list on whitespace, discarding empty tokens
(`str::split_whitespace`). -/
def splitWs (s : List Char) : List (List Char) :=
  splitWsAux s []

/-- Try a continuation on each list entry in order and return the first hit:
the backtracking search of a regex engine over an ordered list of candidate
sub-matches. -/
def tryEach : List α → (α → Option β) → Option β
  | [], _ => none
  | a :: as, f =>
    match f a with
    | some b => some b
    | none => tryEach as f

/-- All ways `CLS*` can consume a prefix of `s`, as (consumed, rest) pairs in
the engine's preference order — greedy, so longest first. -/
def starSplits (cls : Char → Bool) : List Char → List (List Char × List Char)
  | [] => [([], [])]
  | c :: rest =>
    if cls c then
      ((starSplits cls rest).map (fun p => (c :: p.1, p.2))) ++ [([], c :: rest)]
    else [([], c :: rest)]

/-- All ways `CLS+` can consume a non-empty prefix of `s`, longest first. -/
def plusSplits (cls : Char → Bool) : List Char → List (List Char × List Char)
  | [] => []
  | c :: rest =>
    if cls c then (starSplits cls rest).map (fun p => (c :: p.1, p.2)) else []

/-- All ways the optional group `(?:[.,]\d+)?` can consume a prefix of `s`,
in the engine's preference order: the group itself (longest digit run first),
then the empty match. -/
def optSplits (digit : Char → Bool) (s : List Char) : List (List Char × List Char) :=
  (match s with
   | c :: r =>
     if c == '.' || c == ',' then (plusSplits digit r).map (fun p => (c :: p.1, p.2)) else []
   | [] => []) ++ [([], s)]

/-- The trailing `\s*$` of the pattern after the unit tail `TAIL*`, engine
style: try every split of the tail star (greedy), then every split of the
whitespace star, and accept when the remainder is empty; `acc` is the numeric
capture already fixed by the earlier groups. -/
def auTail (tail : Char → Bool) (acc : List Char) (X : List Char) :
    Option (List Char × List Char) :=
  tryEach (starSplits tail X) fun pu =>
    tryEach (starSplits isWsChar pu.2) fun pw =>
      if pw.2.isEmpty then some (acc, pu.1) else none

/-- The pattern from the optional fraction group on: try every way the group
can match (group first, then empty), then the tail and trailing whitespace;
`ip` is the integer-part capture. -/
def auOpt (digit tail : Char → Bool) (ip : List Char) (r1 : List Char) :
    Option (List Char × List Char) :=
  tryEach (optSplits digit r1) fun po => auTail tail (ip ++ po.1) po.2

/-- The pattern from `\d+` on: try every non-empty digit run (longest first),
then the rest of the pattern. -/
def auNum (digit tail : Char → Bool) (s1 : List Char) : Option (List Char × List Char) :=
  tryEach (plusSplits digit s1) fun pd => auOpt digit tail pd.1 pd.2

/-- The regex crate's match of the anchored pattern
`(?i)^\s*(\d+(?:[.,]\d+)?)([a-zа-я%]*)\s*$` (digit and tail classes supplied),
with its leftmost-greedy capture semantics, as a backtracking engine: on a
match, the numeric capture (group 1, the fraction separator kept as written)
and the unit-tail capture (group 2). -/
def regexCapturesAU (digit tail : Char → Bool) (s : List Char) :
    Option (List Char × List Char) :=
  tryEach (starSplits isWsChar s) fun p1 => auNum digit tail p1.2

/-- The optional fraction group of the rule, read deterministically: a
separator followed by at least one digit extends the numeric capture by the
separator and the maximal digit run, else the group is empty. -/
def spanOpt (digit : Char → Bool) (r1 : List Char) : List Char × List Char :=
  match r1 with
  | c :: r =>
    if (c == '.' || c == ',') && digit (r.headD ' ') then
      (c :: r.takeWhile digit, r.dropWhile digit)
    else ([], r1)
  | [] => ([], r1)

/-- The rule's tail step: the units capture is the maximal run of unit-tail
characters, and the match succeeds when only whitespace remains after it. -/
def spanTailPhase (tail : Char → Bool) (acc X : List Char) :
    Option (List Char × List Char) :=
  if (X.dropWhile tail).all isWsChar then some (acc, X.takeWhile tail) else none

/-- The claim rule's deterministic reading of the regex: skip leading
whitespace, take the maximal digit run (failing if empty), the optional
fraction, the maximal unit-tail run, and require only whitespace to remain. -/
def spanCapturesAU (digit tail : Char → Bool) (s : List Char) :
    Option (List Char × List Char) :=
  if ((s.dropWhile isWsChar).takeWhile digit).isEmpty then none
  else
    spanTailPhase tail
      ((s.dropWhile isWsChar).takeWhile digit ++
        (spanOpt digit ((s.dropWhile isWsChar).dropWhile digit)).1)
      (spanOpt digit ((s.dropWhile isWsChar).dropWhile digit)).2

/-- Rust `parse_amount_units` from `src/crawlers/mod.rs`: strip every leading
`/` (`trim_start_matches`), strip leading whitespace (`trim_start`), and run
the regex `(?i)^\s*(\d+(?:[.,]\d+)?)([a-zа-я%]*)\s*$` (the engine above with
the crate's `\d` and the case-folded source tail class); on a match the
numeric capture with commas replaced by dots is parsed as `f64` (`1.0` on
parse failure, e.g. on non-ASCII digits) and an empty tail capture yields
`"шт"`; with no match, fall back to splitting on whitespace. -/
def parse_amount_units (input : String) : FloatVal × String :=
  let trimmed := (input.toList.dropWhile (fun c => c == '/')).dropWhile isWsChar
  match regexCapturesAU isNdChar rustUnitTailChar trimmed with
  | some cap =>
    ((rustParseF64 (replaceCommas cap.1)).getD (FloatVal.fin 1),
     if cap.2.isEmpty then "шт" else String.mk cap.2)
  | none =>
    let tokens := splitWs trimmed
    if 2 ≤ tokens.length then
      ((rustParseF64 (replaceCommas (tokens.getD (tokens.length - 2) []))).getD
          (FloatVal.fin 1),
       String.mk (tokens.getLastD []))
    else if tokens.length = 1 then
      ((rustParseF64 (replaceCommas (tokens.getD 0 []))).getD (FloatVal.fin 1), "шт")
    else (FloatVal.fin 1, "шт")

/-- The amount/units extraction rule of the claim, parameterised by the digit
and unit-tail classes of the regex, with the regex read as the deterministic
span scan `spanCapturesAU`: strip leading `/` characters and leading
whitespace, try the regex, and otherwise fall back to splitting on
whitespace. -/
def amountUnitsRule (digit tail : Char → Bool) (input : String) : FloatVal × String :=
  let trimmed := (input.toList.dropWhile (fun c => c == '/')).dropWhile isWsChar
  match spanCapturesAU digit tail trimmed with
  | some cap =>
    ((rustParseF64 (replaceCommas cap.1)).getD (FloatVal.fin 1),
     if cap.2.isEmpty then "шт" else String.mk cap.2)
  | none =>
    let tokens := splitWs trimmed
    if 2 ≤ tokens.length then
      ((rustParseF64 (replaceCommas (tokens.getD (tokens.length - 2) []))).getD
          (FloatVal.fin 1),
       String.mk (tokens.getLastD []))
    else if tokens.length = 1 then
      ((rustParseF64 (replaceCommas (tokens.getD 0 []))).getD (FloatVal.fin 1), "шт")
    else (FloatVal.fin 1, "шт")

/-- The amount/units rule exactly as the spec words it (§4.3): the digit
class is the spec's literal `[0-9]` and the unit-tail class `[\p{L}%]` — any
Unicode letter — as modelled by `specUnitTailChar`. -/
def specAmountUnitsRule (input : String) : FloatVal × String :=
  amountUnitsRule Char.isDigit specUnitTailChar input

/-! ## Product canonicalisation (`src/crawlers/mod.rs`, `build_new_product`) -/

/-- The `category_assignment_source` values of the external
`pushkind_dantes::domain::types::CategoryAssignmentSource` enum. -/
inductive CategoryAssignmentSource where
  | manual
  | automatic
deriving DecidableEq

/-- The validated `NewProduct` domain record (field-for-field the
`pushkind_dantes::domain::product::NewProduct` struct, with the validated
wrapper types collapsed to their payloads). -/
structure NewProduct where
  crawler_id : ℤ
  sku : String
  name : String
  price : FloatVal
  category : Option String
  units : Option String
  amount : Option FloatVal
  description : Option String
  url : String
  images : List String
deriving DecidableEq

/-- Modelled from the spec: `CrawlerId::new` of the external
`pushkind_dantes` crate; every id is a "non-negative integer identity"
(§3). -/
def crawlerIdOk (i : ℤ) : Bool := 0 ≤ i

/-- Modelled from the spec: `ProductSku::new`, `ProductName::new` and
`ProductUrl::new` of the external `pushkind_dantes` crate; validators
"reject ... empty identifiers (sku, name, url)" (§4.3). -/
def identifierOk (s : String) : Bool := !s.isEmpty

/-- Modelled from the spec: `ProductPrice::new` of the external
`pushkind_dantes` crate; validators "reject non-finite, zero, or negative
numeric quantities" (§4.3). -/
def productPriceOk (v : FloatVal) : Bool :=
  v.isFinite && FloatVal.fblt (FloatVal.fin 0) v

/-- Rust `str::trim` (restricted to the ASCII whitespace exercised here). -/
def trimString (s : String) : String :=
  String.mk (((s.toList.dropWhile isWsChar).reverse.dropWhile isWsChar).reverse)

/-- Rust `trim_to_option` from `src/crawlers/mod.rs`: trim, collapse empty to
absent. -/
def trim_to_option (v : Option String) : Option String :=
  v.bind (fun s =>
    let t := trimString s
    if t.isEmpty then none else some t)

/-- Rust `build_new_product` from `src/crawlers/mod.rs`.  Validation failures
(modelled validators above) return `none` in the source's order; the
`amount` field is passed through
`amount.filter(|value| value.is_finite() && *value > 0.0)` — an invalid
amount is cleared, not rejected. -/
def build_new_product (crawler_id : ℤ) (sku name : String)
    (category units : Option String) (price : FloatVal)
    (amount : Option FloatVal) (description : Option String)
    (url : String) (images : List String) : Option NewProduct :=
  if !crawlerIdOk crawler_id then none
  else if !identifierOk sku then none
  else if !identifierOk name then none
  else if !productPriceOk price then none
  else if !identifierOk url then none
  else
    let category := trim_to_option category
    let units := trim_to_option units
    let amount := amount.filter (fun v => v.isFinite && FloatVal.fblt (FloatVal.fin 0) v)
    let description := trim_to_option description
    let images := images.filterMap (fun i =>
      let t := trimString i
      if t.isEmpty then none else some t)
    some ⟨crawler_id, sku, name, price, category, units, amount, description, url, images⟩

/-! ## Embedding cache and normalisation (`src/processing/embedding.rs`) -/

/-- Rust `normalize_embedding` (and the identical `normalize` of
`src/processing/benchmark.rs`): divide by the Euclidean norm, returning the
vector unchanged when the norm is zero.  The machine square root has no
exact rational counterpart, so it is supplied as an oracle `sqrtF`. -/
def normalize_embedding (sqrtF : FloatVal → FloatVal) (v : List FloatVal) : List FloatVal :=
  let norm := sqrtF (sumSqF v)
  if norm == FloatVal.fin 0 then v
  else v.map (fun x => FloatVal.fdiv x norm)

instance {ε α : Type} [DecidableEq ε] [DecidableEq α] : DecidableEq (Except ε α) := fun x y =>
  match x, y with
  | Except.error a, Except.error b =>
    if h : a = b then Decidable.isTrue (congrArg Except.error h)
    else Decidable.isFalse (fun hh => h (Except.error.inj hh))
  | Except.ok a, Except.ok b =>
    if h : a = b then Decidable.isTrue (congrArg Except.ok h)
    else Decidable.isFalse (fun hh => h (Except.ok.inj hh))
  | Except.error _, Except.ok _ => Decidable.isFalse (fun hh => Except.noConfusion hh)
  | Except.ok _, Except.error _ => Decidable.isFalse (fun hh => Except.noConfusion hh)

/-- Outcome of one `load_or_generate_embedding` call: the function result
together with the observable interactions — the prompts sent to the
embedder and the vectors handed to the persist callback. -/
structure LoadOutcome where
  result : Except String (List FloatVal × Bool)
  embedderCalls : List String
  persistCalls : List (List FloatVal)
deriving DecidableEq

/-- Rust `load_or_generate_embedding` from `src/processing/embedding.rs`.
`none` models the `bytemuck` panic on a blob whose length is not a multiple
of four; otherwise the `LoadOutcome` records the result and the calls made.
The embedder and the persist callback are supplied as oracles. -/
def load_or_generate_embedding (sqrtF : FloatVal → FloatVal)
    (existing_blob : Option (List Nat)) (prompt : String)
    (embedder : String → Except String (List (List FloatVal)))
    (persist : List FloatVal → Except String Unit) : Option LoadOutcome :=
  match existing_blob with
  | some blob =>
    match castSliceF32 blob with
    | some v => some ⟨Except.ok (v, false), [], []⟩
    | none => none
  | none =>
    match embedder prompt with
    | Except.error e => some ⟨Except.error ("Failed to generate embedding: " ++ e), [prompt], []⟩
    | Except.ok results =>
      let generated := ((results.head?).map (normalize_embedding sqrtF)).getD []
      match persist generated with
      | Except.error e => some ⟨Except.error e, [prompt], [generated]⟩
      | Except.ok _ => some ⟨Except.ok (generated, true), [prompt], [generated]⟩

/-! ## Top-k similarity search (`src/processing/embedding.rs`,
`src/processing/benchmark.rs`) -/

/-- Modelled from the spec: the cosine distance computed by the external
`usearch` index (`MetricKind::Cos`): `1 - a·b / (|a| |b|)` (§4.6, §9), with
the machine square root supplied as the oracle `sqrtF`. -/
def cosineDistance (sqrtF : FloatVal → FloatVal) (q v : List FloatVal) : FloatVal :=
  FloatVal.fsub (FloatVal.fin 1)
    (FloatVal.fdiv (dotF q v) (FloatVal.fmul (sqrtF (sumSqF q)) (sqrtF (sumSqF v))))

/-- Insert into a list sorted by ascending distance (IEEE `<`). -/
def insertByDist (x : ℤ × FloatVal) : List (ℤ × FloatVal) → List (ℤ × FloatVal)
  | [] => [x]
  | y :: ys => if FloatVal.fblt x.2 y.2 then x :: y :: ys else y :: insertByDist x ys

/-- Sort by ascending distance (insertion sort; order among ties and `nan`
distances is left to the model, as the external index fixes none). -/
def sortByDist (l : List (ℤ × FloatVal)) : List (ℤ × FloatVal) :=
  l.foldr insertByDist []

/-- Rust `search_top_k` from `src/processing/embedding.rs`.  The early return on
empty inputs or `k = 0` is the source's own; the non-empty case is the
external `usearch` query — modelled from the spec: the `k` nearest
neighbours by cosine distance (§4.6). -/
def search_top_k (sqrtF : FloatVal → FloatVal) (query_embedding : List FloatVal)
    (items : List (ℤ × List FloatVal)) (k : ℕ) : List (ℤ × FloatVal) :=
  if items.isEmpty || k == 0 then []
  else (sortByDist (items.map (fun it => (it.1, cosineDistance sqrtF query_embedding it.2)))).take k

/-- Rust `search_top_10` from `src/processing/benchmark.rs`: the same external
query with `k = 10` and no explicit empty guard (an empty index returns no
neighbours, which coincides with the guarded result). -/
def search_top_10 (sqrtF : FloatVal → FloatVal) (benchmark_embedding : List FloatVal)
    (products : List (ℤ × List FloatVal)) : List (ℤ × FloatVal) :=
  (sortByDist (products.map (fun it => (it.1, cosineDistance sqrtF benchmark_embedding it.2)))).take 10

/-! ## Benchmark matcher (`src/processing/benchmark.rs`) -/

/-- Rendering of an `f64` by Rust's `Display` (standard-library behaviour,
external to this repository) — modelled abstractly; no claim inspects the
rendered text. -/
def formatFloat : FloatVal → String
  | FloatVal.fin q => if q.den = 1 then toString q.num else toString q.num ++ "/" ++ toString q.den
  | FloatVal.posInf => "inf"
  | FloatVal.negInf => "-inf"
  | FloatVal.nan => "NaN"

/-- Rust `prompt` from `src/processing/benchmark.rs`, identical to
`product_embedding_prompt` from `src/processing/embedding.rs`. -/
def product_embedding_prompt (name sku category units : String)
    (price amount : FloatVal) (description : String) : String :=
  "Name: " ++ name ++ "\nSKU: " ++ sku ++ "\nCategory: " ++ category ++
    "\nUnits: " ++ units ++ "\nPrice: " ++ formatFloat price ++
    "\nAmount: " ++ formatFloat amount ++ "\nDescription: " ++ description

/-- Rust `SIMILARITY_THRESHOLD` from `src/lib.rs` (and the literal `0.8` of
`process_benchmark`), in the exact-value float model. -/
def SIMILARITY_THRESHOLD : FloatVal := FloatVal.fin ⟨4, 5⟩

/-- The `pushkind` benchmark domain record (the fields `process_benchmark`
reads). -/
structure BenchmarkRec where
  id : ℤ
  hub_id : ℤ
  name : String
  sku : String
  category : String
  units : String
  price : FloatVal
  amount : FloatVal
  description : String
  embedding : Option (List Nat)
  processing : Bool

/-- The crawler domain record (the fields the matchers read). -/
structure CrawlerRec where
  id : ℤ
  name : String

/-- The product domain record (the fields the matchers read). -/
structure ProductRec where
  id : ℤ
  name : String
  sku : String
  category : Option String
  units : Option String
  price : FloatVal
  amount : Option FloatVal
  description : Option String
  embedding : Option (List Nat)

/-- A successful repository write performed by the benchmark matcher. -/
inductive BenchEvent where
  | setBenchmarkEmbedding (benchmark_id : ℤ) (v : List FloatVal)
  | removeAssociations (benchmark_id : ℤ)
  | setProductEmbedding (product_id : ℤ) (v : List FloatVal)
  | setAssociation (benchmark_id product_id : ℤ) (value : FloatVal)
deriving DecidableEq

/-- Environment of a benchmark run: read oracles for the repository and the
embedder, success flags for the write operations (a failing call performs
no write), and the machine-sqrt oracle. -/
structure BenchEnv where
  sqrtF : FloatVal → FloatVal
  embedderInitOk : Bool
  embed : String → Except String (List (List FloatVal))
  getBenchmark : Except Unit BenchmarkRec
  listCrawlers : Except Unit (List CrawlerRec)
  listProducts : ℤ → Except Unit (List ProductRec)
  setBenchmarkEmbeddingOk : Bool
  setProductEmbeddingOk : ℤ → Bool
  removeAssociationsOk : Bool
  setAssociationOk : ℤ → Bool
  setProcessingOk : Bool
  updateStatsOk : Bool

/-- One product of the per-crawler loop of `process_benchmark`: resolve its
embedding (cached blob, or embed + normalise + persist).  Returns the
writes and the embedding, or `none` when the step aborts the run. -/
def benchProductStep (env : BenchEnv) (p : ProductRec) :
    List BenchEvent × Option (List FloatVal) :=
  match p.embedding with
  | some blob =>
    match castSliceF32 blob with
    | some v => ([], some v)
    | none => ([], none)
  | none =>
    let text := product_embedding_prompt p.name p.sku (p.category.getD "")
      (p.units.getD "") p.price (p.amount.getD (FloatVal.fin 0)) (p.description.getD "")
    match env.embed text with
    | Except.error _ => ([], none)
    | Except.ok rs =>
      let e := normalize_embedding env.sqrtF (rs.headD [])
      if env.setProductEmbeddingOk p.id then ([BenchEvent.setProductEmbedding p.id e], some e)
      else ([], none)

/-- The per-crawler product loop of `process_benchmark`: resolve an
embedding for every product.  Returns the writes performed and, unless a
step aborted the run, the id/embedding candidate list. -/
def benchProductEmbeddings (env : BenchEnv) :
    List ProductRec → List BenchEvent × Option (List (ℤ × List FloatVal))
  | [] => ([], some [])
  | p :: rest =>
    match benchProductStep env p with
    | (evs, none) => (evs, none)
    | (evs, some e) =>
      match benchProductEmbeddings env rest with
      | (evs', res) => (evs ++ evs', res.map (fun acc => (p.id, e) :: acc))

/-- The association-writing loop of `process_benchmark`: the loop variable
`distance` is rebound to `1.0 - distance` (the similarity), compared against
the `0.8` threshold, and that rebound value is what is stored.  Returns the
writes and whether the loop ran to completion. -/
def benchAssociationWrites (env : BenchEnv) (benchmark_id : ℤ) :
    List (ℤ × FloatVal) → List BenchEvent × Bool
  | [] => ([], true)
  | (key, distance) :: rest =>
    let distance := FloatVal.fsub (FloatVal.fin 1) distance
    if FloatVal.fblt distance SIMILARITY_THRESHOLD then
      benchAssociationWrites env benchmark_id rest
    else if env.setAssociationOk key then
      let (evs, ok) := benchAssociationWrites env benchmark_id rest
      (BenchEvent.setAssociation benchmark_id key distance :: evs, ok)
    else ([], false)

/-- One crawler of the loop of `process_benchmark`: list its products,
resolve their embeddings, query the top-10 and write the qualifying
associations.  Returns the writes and whether the loop continues (`false`
models the early `return` on a failed step). -/
def benchCrawlerStep (env : BenchEnv) (benchmark_id : ℤ) (benchmark_embedding : List FloatVal)
    (c : CrawlerRec) : List BenchEvent × Bool :=
  match env.listProducts c.id with
  | Except.error _ => ([], false)
  | Except.ok ps =>
    match benchProductEmbeddings env ps with
    | (evs, none) => (evs, false)
    | (evs, some candidates) =>
      match benchAssociationWrites env benchmark_id
        (search_top_10 env.sqrtF benchmark_embedding candidates) with
      | (aevs, ok) => (evs ++ aevs, ok)

/-- The crawler loop of `process_benchmark`. -/
def benchCrawlerLoop (env : BenchEnv) (benchmark_id : ℤ) (benchmark_embedding : List FloatVal) :
    List CrawlerRec → List BenchEvent
  | [] => []
  | c :: rest =>
    match benchCrawlerStep env benchmark_id benchmark_embedding c with
    | (evs, false) => evs
    | (evs, true) => evs ++ benchCrawlerLoop env benchmark_id benchmark_embedding rest

/-- The benchmark-embedding step of `process_benchmark`: cached blob, or
embed + normalise + persist via `set_benchmark_embedding`. -/
def benchEmbeddingStep (env : BenchEnv) (benchmark : BenchmarkRec) :
    List BenchEvent × Option (List FloatVal) :=
  match benchmark.embedding with
  | some blob =>
    match castSliceF32 blob with
    | some v => ([], some v)
    | none => ([], none)
  | none =>
    let text := product_embedding_prompt benchmark.name benchmark.sku benchmark.category
      benchmark.units benchmark.price benchmark.amount benchmark.description
    match env.embed text with
    | Except.error _ => ([], none)
    | Except.ok rs =>
      let e := normalize_embedding env.sqrtF (rs.headD [])
      if env.setBenchmarkEmbeddingOk then
        ([BenchEvent.setBenchmarkEmbedding benchmark.id e], some e)
      else ([], none)

/-- Rust `process_benchmark` from `src/processing/benchmark.rs`: embedder
initialisation, benchmark embedding (cached or generated), crawler
enumeration, association reset, and the per-crawler matching loop.  The
result is the list of repository writes performed; an error path stops the
run with the writes made so far (the function never touches the
`processing` flag). -/
def process_benchmark (env : BenchEnv) (benchmark : BenchmarkRec) : List BenchEvent :=
  if !env.embedderInitOk then []
  else
    match benchEmbeddingStep env benchmark with
    | (evs, none) => evs
    | (evs, some bemb) =>
      match env.listCrawlers with
      | Except.error _ => evs
      | Except.ok crawlers =>
        if env.removeAssociationsOk then
          evs ++ BenchEvent.removeAssociations benchmark.id ::
            benchCrawlerLoop env benchmark.id bemb crawlers
        else evs

/-- Rust `process_benchmark_message` from `src/processing/benchmark.rs`: fetch
the benchmark, bail out when already `processing`, set `processing := true`,
run `process_benchmark` (whose internal failures only end it early), and
then — unconditionally — call `update_benchmark_stats`, which resets
`processing := false` when it succeeds.  Returns the benchmark's final
`processing` flag (`none` when the fetch failed) and the writes of the core
run. -/
def process_benchmark_message (env : BenchEnv) : Option Bool × List BenchEvent :=
  match env.getBenchmark with
  | Except.error _ => (none, [])
  | Except.ok benchmark =>
    if benchmark.processing then (some true, [])
    else if !env.setProcessingOk then (some benchmark.processing, [])
    else
      let evs := process_benchmark env benchmark
      if env.updateStatsOk then (some false, evs) else (some true, evs)

/-! ## Category matcher (`src/processing/category.rs`) -/

/-- The category domain record (the fields the matcher reads). -/
structure CategoryRec where
  id : ℤ
  name : String
  embedding : Option (List Nat)

/-- Rust `category_prompt` from `src/processing/category.rs`: the category name
verbatim. -/
def category_prompt (name : String) : String := name

/-- Rust `MatchStats` from `src/processing/category.rs`. -/
structure MatchStats where
  categories_loaded : ℕ := 0
  products_loaded : ℕ := 0
  category_embeddings_generated : ℕ := 0
  product_embeddings_generated : ℕ := 0
  matched : ℕ := 0
  unmatched : ℕ := 0
  skipped_below_threshold : ℕ := 0
  skipped_invalid_category_id : ℕ := 0
  skipped_no_category_candidate : ℕ := 0
deriving DecidableEq

/-- An observable action of the category matcher: a successful repository
write, or the §4.8-step-3 warning log line. -/
inductive CatEvent where
  | setCategoryEmbedding (category_id : ℤ) (v : List FloatVal)
  | setProductEmbedding (product_id : ℤ) (v : List FloatVal)
  | setProductCategoryAuto (product_id : ℤ) (category_id : Option ℤ)
  | warnNoCategories
deriving DecidableEq

/-- Environment of a category-match run (read oracles, write success flags,
machine-sqrt oracle). -/
structure CatEnv where
  sqrtF : FloatVal → FloatVal
  embedderInitOk : Bool
  embed : String → Except String (List (List FloatVal))
  listCrawlers : Except Unit (List CrawlerRec)
  listProducts : ℤ → Except Unit (List ProductRec)
  listCategories : Except Unit (List CategoryRec)
  setCategoryEmbeddingOk : ℤ → Bool
  setProductEmbeddingOk : ℤ → Bool
  setProductCategoryOk : ℤ → Bool

/-- The `i32::try_from(key).ok().and_then(CategoryId::new)` conversion of
`process_product_category_match`: the index key must fit in an `i32` and
pass `CategoryId::new` (modelled from the spec: ids are non-negative
integer identities).  A negative id would have wrapped to a huge `u64` at
insertion, so it also fails here. -/
def categoryIdValid (k : ℤ) : Bool := decide (0 ≤ k) && decide (k < 2 ^ 31)

/-- The product-gathering loop of `process_product_category_match`:
`list_products` per crawler, concatenated, any failure aborting. -/
def catGatherProducts (env : CatEnv) : List CrawlerRec → Except Unit (List ProductRec)
  | [] => Except.ok []
  | c :: rest =>
    match env.listProducts c.id with
    | Except.error _ => Except.error ()
    | Except.ok ps => (catGatherProducts env rest).map (ps ++ ·)

/-- The category-embedding loop of `process_product_category_match`:
resolve every category embedding through `load_or_generate_embedding`,
persisting via `set_category_embedding`; returns the writes, and the
candidate list with the generated-embedding count unless a step aborted. -/
def catCategoryLoop (env : CatEnv) :
    List CategoryRec → List CatEvent × Except Unit (List (ℤ × List FloatVal) × ℕ)
  | [] => ([], Except.ok ([], 0))
  | c :: rest =>
    match load_or_generate_embedding env.sqrtF c.embedding (category_prompt c.name) env.embed
        (fun _ => if env.setCategoryEmbeddingOk c.id then Except.ok () else Except.error "persist") with
    | none => ([], Except.error ())
    | some out =>
      match out.result with
      | Except.error _ => ([], Except.error ())
      | Except.ok (emb, generated) =>
        let evs := if generated then [CatEvent.setCategoryEmbedding c.id emb] else []
        match catCategoryLoop env rest with
        | (evs', Except.error ()) => (evs ++ evs', Except.error ())
        | (evs', Except.ok (acc, g)) =>
          (evs ++ evs', Except.ok ((c.id, emb) :: acc, (if generated then 1 else 0) + g))

/-- The per-product loop of `process_product_category_match`: resolve the
product embedding, run `search_top_k` with `k = 1` against the category
candidates, convert the distance to a similarity, decide the assignment
(absent below the threshold, or for an invalid id, or with no candidate),
and write it through `set_product_category_automatic`. -/
def catProductLoop (env : CatEnv) (catEmbs : List (ℤ × List FloatVal)) :
    List ProductRec → MatchStats → List CatEvent × Except Unit MatchStats
  | [], stats => ([], Except.ok stats)
  | p :: rest, stats =>
    match load_or_generate_embedding env.sqrtF p.embedding
        (product_embedding_prompt p.name p.sku (p.category.getD "") (p.units.getD "")
          p.price (p.amount.getD (FloatVal.fin 0)) (p.description.getD "")) env.embed
        (fun _ => if env.setProductEmbeddingOk p.id then Except.ok () else Except.error "persist") with
    | none => ([], Except.error ())
    | some out =>
      match out.result with
      | Except.error _ => ([], Except.error ())
      | Except.ok (pemb, generated) =>
        let evs0 := if generated then [CatEvent.setProductEmbedding p.id pemb] else []
        let stats1 :=
          if generated then
            { stats with product_embeddings_generated := stats.product_embeddings_generated + 1 }
          else stats
        let step : Option ℤ × MatchStats :=
          match (search_top_k env.sqrtF pemb catEmbs 1).head? with
          | some (key, distance) =>
            let similarity := FloatVal.fsub (FloatVal.fin 1) distance
            if FloatVal.fblt similarity SIMILARITY_THRESHOLD then
              (none, { stats1 with skipped_below_threshold := stats1.skipped_below_threshold + 1 })
            else if categoryIdValid key then (some key, stats1)
            else
              (none,
               { stats1 with skipped_invalid_category_id := stats1.skipped_invalid_category_id + 1 })
          | none =>
            (none,
             { stats1 with skipped_no_category_candidate := stats1.skipped_no_category_candidate + 1 })
        if env.setProductCategoryOk p.id then
          let stats3 :=
            if step.1.isSome then { step.2 with matched := step.2.matched + 1 }
            else { step.2 with unmatched := step.2.unmatched + 1 }
          (evs0 ++ CatEvent.setProductCategoryAuto p.id step.1 ::
              (catProductLoop env catEmbs rest stats3).1,
           (catProductLoop env catEmbs rest stats3).2)
        else (evs0, Except.error ())

/-- Rust `process_product_category_match` from `src/processing/category.rs`:
embedder initialisation, crawler and product enumeration, category
enumeration and embedding, the warning when the tenant has products but no
categories, and the per-product matching loop.  Returns the observable
actions and the final statistics (or the abort). -/
def process_product_category_match (env : CatEnv) : List CatEvent × Except Unit MatchStats :=
  if !env.embedderInitOk then ([], Except.error ())
  else
    match env.listCrawlers with
    | Except.error _ => ([], Except.error ())
    | Except.ok crawlers =>
      match catGatherProducts env crawlers with
      | Except.error _ => ([], Except.error ())
      | Except.ok products =>
        match env.listCategories with
        | Except.error _ => ([], Except.error ())
        | Except.ok categories =>
          match catCategoryLoop env categories with
          | (evs, Except.error _) => (evs, Except.error ())
          | (evs, Except.ok (catEmbs, gen)) =>
            let stats0 : MatchStats :=
              { categories_loaded := categories.length, products_loaded := products.length,
                category_embeddings_generated := gen }
            let warnEvs :=
              if categories.length = 0 && 0 < products.length then [CatEvent.warnNoCategories]
              else []
            (evs ++ warnEvs ++ (catProductLoop env catEmbs products stats0).1,
             (catProductLoop env catEmbs products stats0).2)

/-! ## Per-tenant processing guard (`src/processing/category.rs`,
`run_with_hub_processing_guard`; flag writes from
`src/repository/category.rs`) -/

/-- The per-tenant `processing` flag state: whether any crawler row /
benchmark row of the hub is flagged (the `has_any_processing_in_hub`
reading collapses the row counts to the two disjuncts). -/
structure GuardState where
  crawlers : Bool
  benchmarks : Bool
deriving DecidableEq

/-- Error-injection environment for the guard: whether each repository call
succeeds (a failing `set` call leaves the flags unchanged). -/
structure GuardEnv where
  hasAnyOk : Bool
  setCrawlersTrueOk : Bool
  setBenchTrueOk : Bool
  setCrawlersFalseOk : Bool
  setBenchFalseOk : Bool

/-- A repository call attempted by the guard (argument and success). -/
inductive GuardEvent where
  | setCrawlers (processing : Bool) (ok : Bool)
  | setBenchmarks (processing : Bool) (ok : Bool)
deriving DecidableEq

/-- Rust `run_with_hub_processing_guard` from `src/processing/category.rs`:
skip when the hub already has processing activity; claim by setting the
crawler flags and then the benchmark flags to `true` (rolling the crawler
flags back when the second set fails); run the job; reset both flag sets to
`false` on the way out regardless of the job's outcome (reset failures are
logged and ignored).  Returns the result, the final flag state, and the
attempted flag writes. -/
def run_with_hub_processing_guard {T : Type} (env : GuardEnv) (st : GuardState)
    (job : Except Unit T) : Except Unit (Option T) × GuardState × List GuardEvent :=
  if !env.hasAnyOk then (Except.error (), st, [])
  else if st.crawlers || st.benchmarks then (Except.ok none, st, [])
  else if !env.setCrawlersTrueOk then (Except.error (), st, [GuardEvent.setCrawlers true false])
  else
    let st1 : GuardState := ⟨true, st.benchmarks⟩
    if !env.setBenchTrueOk then
      if env.setCrawlersFalseOk then
        (Except.error (), ⟨false, st1.benchmarks⟩,
         [GuardEvent.setCrawlers true true, GuardEvent.setBenchmarks true false,
          GuardEvent.setCrawlers false true])
      else
        (Except.error (), st1,
         [GuardEvent.setCrawlers true true, GuardEvent.setBenchmarks true false,
          GuardEvent.setCrawlers false false])
    else
      let st2 : GuardState := ⟨st1.crawlers, true⟩
      let st3 : GuardState := if env.setCrawlersFalseOk then ⟨false, st2.benchmarks⟩ else st2
      let st4 : GuardState := if env.setBenchFalseOk then ⟨st3.crawlers, false⟩ else st3
      let evs := [GuardEvent.setCrawlers true true, GuardEvent.setBenchmarks true true,
        GuardEvent.setCrawlers false env.setCrawlersFalseOk,
        GuardEvent.setBenchmarks false env.setBenchFalseOk]
      match job with
      | Except.ok v => (Except.ok (some v), st4, evs)
      | Except.error _ => (Except.error (), st4, evs)

/-! ## Product-table writes (`src/repository/category.rs`,
`src/repository/product.rs`)

The relational rows touched by the claims, with the SQL statements of the
repository modelled as list transformations.  Timestamps are abstract
integers; `diesel::dsl::now` / `Utc::now()` is passed in as `now`. -/

/-- A row of the `products` table (the columns the claims talk about). -/
structure ProductRow where
  id : ℤ
  crawler_id : ℤ
  sku : String
  name : String
  price : FloatVal
  category : Option String
  units : Option String
  amount : Option FloatVal
  description : Option String
  url : String
  category_id : Option ℤ
  category_assignment_source : CategoryAssignmentSource
  embedding : Option (List Nat)
  updated_at : ℤ
deriving DecidableEq

/-- The row filter of `set_product_category_automatic`:
`id = product_id AND category_assignment_source != 'manual'`. -/
def autoTouches (product_id : ℤ) (r : ProductRow) : Bool :=
  r.id == product_id && !(r.category_assignment_source == CategoryAssignmentSource.manual)

/-- Rust `set_product_category_automatic` from `src/repository/category.rs`:
update the filtered rows' `category_id` (possibly to absent),
`category_assignment_source := 'automatic'` and `updated_at := now`;
returns the new table and the affected-row count. -/
def set_product_category_automatic (now : ℤ) (product_id : ℤ) (category_id : Option ℤ)
    (tbl : List ProductRow) : List ProductRow × ℕ :=
  (tbl.map (fun r =>
    if autoTouches product_id r then
      { r with category_id := category_id,
               category_assignment_source := CategoryAssignmentSource.automatic,
               updated_at := now }
    else r),
   tbl.countP (autoTouches product_id))

/-- The row filter of `clear_product_categories_by_crawler`:
`crawler_id = crawler_id AND category_assignment_source != 'manual'`. -/
def clearTouches (crawler_id : ℤ) (r : ProductRow) : Bool :=
  r.crawler_id == crawler_id && !(r.category_assignment_source == CategoryAssignmentSource.manual)

/-- Rust `clear_product_categories_by_crawler` from `src/repository/category.rs`:
set the filtered rows' `category_id` to absent,
`category_assignment_source := 'automatic'` and `updated_at := now`. -/
def clear_product_categories_by_crawler (now : ℤ) (crawler_id : ℤ)
    (tbl : List ProductRow) : List ProductRow × ℕ :=
  (tbl.map (fun r =>
    if clearTouches crawler_id r then
      { r with category_id := none,
               category_assignment_source := CategoryAssignmentSource.automatic,
               updated_at := now }
    else r),
   tbl.countP (clearTouches crawler_id))

/-- The products/product-images store: rows, the `product_images` table as
`(product_id, url)` pairs, and the id sequence for fresh inserts.  Row
order in the lists is immaterial to the observations below. -/
structure ProductsState where
  rows : List ProductRow
  images : List (ℤ × String)
  nextId : ℤ
deriving DecidableEq

/-- Rust `replace_product_images` from `src/repository/product.rs`: delete all
images of the product, then insert the new ones. -/
def replace_product_images (product_id : ℤ) (image_urls : List String)
    (imgs : List (ℤ × String)) : List (ℤ × String) :=
  imgs.filter (fun e => !(e.1 == product_id)) ++ image_urls.map (fun u => (product_id, u))

/-- Whether a row carries the given `(crawler_id, url)` natural key. -/
def rowKeyIs (crawler_id : ℤ) (url : String) (r : ProductRow) : Bool :=
  r.crawler_id == crawler_id && r.url == url

/-- Whether a raw product carries the given `(crawler_id, url)` natural
key. -/
def prodKeyIs (crawler_id : ℤ) (url : String) (p : NewProduct) : Bool :=
  p.crawler_id == crawler_id && p.url == url

/-- The `on_conflict((crawler_id, url))` collision test of
`update_products`. -/
def keyMatches (p : NewProduct) (r : ProductRow) : Bool :=
  rowKeyIs p.crawler_id p.url r

/-- The `do_update().set((&db_product, updated_at))` of `update_products`:
overwrite every `NewProduct` column and touch `updated_at`; the columns a
`NewProduct` does not carry (`category_id`, `category_assignment_source`,
`embedding`) are untouched. -/
def overwriteRow (now : ℤ) (p : NewProduct) (r : ProductRow) : ProductRow :=
  { r with sku := p.sku, name := p.name, price := p.price, category := p.category,
           units := p.units, amount := p.amount, description := p.description,
           updated_at := now }

/-- A freshly inserted row: `NewProduct` columns plus the schema defaults
for the columns a `NewProduct` does not carry. -/
def insertRow (now : ℤ) (p : NewProduct) (id : ℤ) : ProductRow :=
  { id := id, crawler_id := p.crawler_id, sku := p.sku, name := p.name, price := p.price,
    category := p.category, units := p.units, amount := p.amount,
    description := p.description, url := p.url, category_id := none,
    category_assignment_source := CategoryAssignmentSource.automatic,
    embedding := none, updated_at := now }

/-- One iteration of the `update_products` transaction: upsert the row by
`(crawler_id, url)` and replace its images wholesale under the returned
id. -/
def applyUpsert (now : ℤ) (st : ProductsState) (p : NewProduct) : ProductsState :=
  match st.rows.find? (keyMatches p) with
  | some r =>
    { rows := st.rows.map (fun r' => if keyMatches p r' then overwriteRow now p r' else r'),
      images := replace_product_images r.id p.images st.images,
      nextId := st.nextId }
  | none =>
    { rows := st.rows ++ [insertRow now p st.nextId],
      images := replace_product_images st.nextId p.images st.images,
      nextId := st.nextId + 1 }

/-- Rust `update_products` from `src/repository/product.rs`: the per-record
upsert loop over the batch, in order. -/
def update_products (now : ℤ) (products : List NewProduct) (st : ProductsState) : ProductsState :=
  products.foldl (applyUpsert now) st

/-- Well-formedness of a row list, as the schema constraints give it:
distinct ids and distinct `(crawler_id, url)` keys. -/
def wfRows : List ProductRow → Bool
  | [] => true
  | r :: rest =>
    rest.all (fun r' =>
      !(r.id == r'.id) && !(r.crawler_id == r'.crawler_id && r.url == r'.url)) && wfRows rest

/-- Well-formed store: row constraints plus every id below the id
sequence. -/
def wfState (st : ProductsState) : Bool :=
  wfRows st.rows && st.rows.all (fun r => r.id < st.nextId)

/-- The observable content of a product row under its natural key: every
column except the surrogate id, together with the row's image list. -/
structure RowObs where
  sku : String
  name : String
  price : FloatVal
  category : Option String
  units : Option String
  amount : Option FloatVal
  description : Option String
  category_id : Option ℤ
  category_assignment_source : CategoryAssignmentSource
  embedding : Option (List Nat)
  updated_at : ℤ
  images : List String
deriving DecidableEq

/-- Observe one row inside a store (images fetched by the row id). -/
def rowObs (st : ProductsState) (r : ProductRow) : RowObs :=
  ⟨r.sku, r.name, r.price, r.category, r.units, r.amount, r.description, r.category_id,
   r.category_assignment_source, r.embedding, r.updated_at,
   (st.images.filter (fun e => e.1 == r.id)).map (fun e => e.2)⟩

/-- The persisted product set, keyed by `(crawler_id, url)`. -/
def lookupObs (crawler_id : ℤ) (url : String) (st : ProductsState) : Option RowObs :=
  (st.rows.find? (rowKeyIs crawler_id url)).map (rowObs st)

/-- The batch element that wins the upsert for a given key: the last one in
the batch with that `(crawler_id, url)`. -/
def lastUpsert (products : List NewProduct) (crawler_id : ℤ) (url : String) : Option NewProduct :=
  products.reverse.find? (prodKeyIs crawler_id url)

/-- The columns of an upserted row that survive from before the batch (or
the insert defaults when the key is new). -/
def preservedCols (crawler_id : ℤ) (url : String) (st : ProductsState) :
    Option ℤ × CategoryAssignmentSource × Option (List Nat) :=
  match st.rows.find? (rowKeyIs crawler_id url) with
  | some r => (r.category_id, r.category_assignment_source, r.embedding)
  | none => (none, CategoryAssignmentSource.automatic, none)

/-- The observation of a key after its row was upserted from `p` at time
`now`, given the surviving columns. -/
def upsertedObs (now : ℤ) (p : NewProduct)
    (pres : Option ℤ × CategoryAssignmentSource × Option (List Nat)) : RowObs :=
  ⟨p.sku, p.name, p.price, p.category, p.units, p.amount, p.description,
   pres.1, pres.2.1, pres.2.2, now, p.images⟩

/-! ## Observation helpers and concrete fixtures -/

/-- The association rows written during a benchmark run:
`(benchmark_id, product_id, stored value)`. -/
def writtenAssociations (evs : List BenchEvent) : List (ℤ × ℤ × FloatVal) :=
  evs.filterMap (fun e =>
    match e with
    | BenchEvent.setAssociation b p v => some (b, p, v)
    | _ => none)

/-- Whether a category-matcher action is a `set_product_category_automatic`
write. -/
def isAutoEvent : CatEvent → Bool
  | CatEvent.setProductCategoryAuto _ _ => true
  | _ => false

/-- The little-endian bytes of the `f32` vector `[1.0, 0.0]`. -/
def blobOne : List Nat := [0, 0, 128, 63, 0, 0, 0, 0]

/-- A square-root oracle that is exact at `1` (all the fixtures need). -/
def sqrtOne : FloatVal → FloatVal :=
  fun v => if v == FloatVal.fin 1 then FloatVal.fin 1 else FloatVal.fin 0

/-- Fixture benchmark: id 10 in hub 1, embedding cached as `[1.0, 0.0]`,
not processing. -/
def bC1 : BenchmarkRec :=
  ⟨10, 1, "bench", "sku", "cat", "шт", FloatVal.fin 1, FloatVal.fin 1, "desc",
   some blobOne, false⟩

/-- Fixture product: id 7, embedding cached as `[1.0, 0.0]`. -/
def pC1 : ProductRec :=
  ⟨7, "prod", "sku7", none, none, FloatVal.fin 1, none, none, some blobOne⟩

/-- Fixture benchmark environment: one crawler, one product identical to
the benchmark embedding, every repository call succeeding. -/
def envC1 : BenchEnv :=
  { sqrtF := sqrtOne
    embedderInitOk := true
    embed := fun _ => Except.error "embedder unused by this fixture"
    getBenchmark := Except.ok bC1
    listCrawlers := Except.ok [⟨1, "crawler"⟩]
    listProducts := fun _ => Except.ok [pC1]
    setBenchmarkEmbeddingOk := true
    setProductEmbeddingOk := fun _ => true
    removeAssociationsOk := true
    setAssociationOk := fun _ => true
    setProcessingOk := true
    updateStatsOk := true }

/-- Fixture benchmark environment whose embedder initialisation fails
mid-run (after the `processing` flag is set). -/
def envC3 : BenchEnv := { envC1 with embedderInitOk := false }

/-- Fixture category-match environment: one crawler, one product, an empty
category directory, every repository call succeeding. -/
def envC6 : CatEnv :=
  { sqrtF := sqrtOne
    embedderInitOk := true
    embed := fun _ => Except.error "embedder unused by this fixture"
    listCrawlers := Except.ok [⟨1, "crawler"⟩]
    listProducts := fun _ => Except.ok [pC1]
    listCategories := Except.ok []
    setCategoryEmbeddingOk := fun _ => true
    setProductEmbeddingOk := fun _ => true
    setProductCategoryOk := fun _ => true }

/-- The statistics of a category-match run over `envC6`: one product
loaded, unmatched with no candidate, zero matched. -/
def statsC6 : MatchStats :=
  { categories_loaded := 0, products_loaded := 1, category_embeddings_generated := 0,
    product_embeddings_generated := 0, matched := 0, unmatched := 1,
    skipped_below_threshold := 0, skipped_invalid_category_id := 0,
    skipped_no_category_candidate := 1 }

/-- Fixture product row with a manual category assignment. -/
def rowManual : ProductRow :=
  ⟨3, 1, "sku3", "name3", FloatVal.fin 5, none, none, none, none, "url3",
   some 9, CategoryAssignmentSource.manual, none, 100⟩

/-- Fixture product row with an automatic category assignment. -/
def rowAuto : ProductRow :=
  ⟨4, 1, "sku4", "name4", FloatVal.fin 6, none, none, none, none, "url4",
   some 9, CategoryAssignmentSource.automatic, none, 100⟩

/-- Fixture raw product for the upsert model. -/
def newProdFix : NewProduct :=
  ⟨1, "sku4", "name4x", FloatVal.fin 7, none, none, none, none, "url4", ["img1"]⟩

/-- Fixture store: the two rows above with one image each. -/
def stFix : ProductsState :=
  ⟨[rowManual, rowAuto], [(3, "old3"), (4, "old4")], 5⟩

/-! ## Helper lemmas -/

theorem identifierOk_empty : identifierOk "" = false := rfl

theorem tryEach_singleton {α β : Type} (a : α) (f : α → Option β) :
    tryEach [a] f = f a := by
  cases h : f a <;> simp [tryEach, h]

theorem tryEach_append {α β : Type} (l₁ l₂ : List α) (f : α → Option β) :
    tryEach (l₁ ++ l₂) f = (tryEach l₁ f).or (tryEach l₂ f) := by
  induction l₁ with
  | nil => simp [tryEach, Option.or]
  | cons a as ih =>
    simp only [List.cons_append, tryEach]
    cases h : f a
    · simp [h, ih]
    · simp [h, Option.or]

theorem tryEach_map {α γ β : Type} (g : α → γ) (l : List α) (f : γ → Option β) :
    tryEach (l.map g) f = tryEach l (fun a => f (g a)) := by
  induction l with
  | nil => rfl
  | cons a as ih =>
    simp only [List.map_cons, tryEach]
    cases h : f (g a) <;> simp [h, ih]

theorem tryEach_starSplits {β : Type} (cls : Char → Bool) :
    ∀ (s : List Char) (k : List Char × List Char → Option β),
      (∀ pre c rest, cls c = true → k (pre, c :: rest) = none) →
      tryEach (starSplits cls s) k = k (s.takeWhile cls, s.dropWhile cls) := by
  intro s
  induction s with
  | nil =>
    intro k hk
    show tryEach [(([] : List Char), ([] : List Char))] k = k ([], [])
    exact tryEach_singleton _ _
  | cons c rest ih =>
    intro k hk
    by_cases hc : cls c = true
    · have hs : starSplits cls (c :: rest) =
          ((starSplits cls rest).map (fun p => (c :: p.1, p.2))) ++ [([], c :: rest)] := by
        simp [starSplits, hc]
      rw [hs, tryEach_append, tryEach_map, tryEach_singleton, hk [] c rest hc]
      rw [ih (fun p => k (c :: p.1, p.2)) (fun pre c2 r2 h2 => hk (c :: pre) c2 r2 h2)]
      simp [List.takeWhile_cons, List.dropWhile_cons, hc, Option.or_none]
    · have hc2 : cls c = false := eq_false_of_ne_true hc
      have hs : starSplits cls (c :: rest) = [([], c :: rest)] := by
        simp [starSplits, hc2]
      rw [hs, tryEach_singleton]
      simp [List.takeWhile_cons, List.dropWhile_cons, hc2]

theorem tryEach_plusSplits {β : Type} (cls : Char → Bool) (s : List Char)
    (k : List Char × List Char → Option β)
    (hk : ∀ pre c rest, cls c = true → k (pre, c :: rest) = none) :
    tryEach (plusSplits cls s) k =
      if (s.takeWhile cls).isEmpty then none
      else k (s.takeWhile cls, s.dropWhile cls) := by
  cases s with
  | nil => rfl
  | cons c rest =>
    by_cases hc : cls c = true
    · have hs : plusSplits cls (c :: rest) =
          (starSplits cls rest).map (fun p => (c :: p.1, p.2)) := by
        simp [plusSplits, hc]
      rw [hs, tryEach_map]
      rw [tryEach_starSplits cls rest (fun p => k (c :: p.1, p.2))
        (fun pre c2 r2 h2 => hk (c :: pre) c2 r2 h2)]
      simp [List.takeWhile_cons, List.dropWhile_cons, hc]
    · have hc2 : cls c = false := eq_false_of_ne_true hc
      have hs : plusSplits cls (c :: rest) = [] := by simp [plusSplits, hc2]
      rw [hs]
      simp [tryEach, List.takeWhile_cons, hc2]

theorem dropWhile_isEmpty_eq_all (p : Char → Bool) (l : List Char) :
    (l.dropWhile p).isEmpty = l.all p := by
  induction l with
  | nil => rfl
  | cons c r ih =>
    by_cases hc : p c = true
    · simp [List.dropWhile_cons, List.all_cons, hc, ih]
    · have hc2 : p c = false := eq_false_of_ne_true hc
      simp [List.dropWhile_cons, List.all_cons, hc2]

theorem auTail_eq_spanTailPhase (tail : Char → Bool)
    (htw : ∀ c, tail c = true → isWsChar c = false)
    (acc X : List Char) :
    auTail tail acc X = spanTailPhase tail acc X := by
  have hinner : ∀ (u Y : List Char),
      (tryEach (starSplits isWsChar Y) fun pw =>
        if pw.2.isEmpty then some ((acc, u) : List Char × List Char) else none) =
        if (Y.dropWhile isWsChar).isEmpty then some (acc, u) else none := by
    intro u Y
    rw [tryEach_starSplits isWsChar Y
      (fun pw => if pw.2.isEmpty then some ((acc, u) : List Char × List Char) else none)
      (fun pre c r hc => by simp [List.isEmpty])]
  unfold auTail
  simp only [hinner]
  rw [tryEach_starSplits tail X
    (fun pu => if ((pu.2.dropWhile isWsChar).isEmpty) then
        some ((acc, pu.1) : List Char × List Char) else none)
    (fun pre c r hc => by simp [List.dropWhile_cons, htw c hc, List.isEmpty])]
  rw [dropWhile_isEmpty_eq_all]
  rfl

theorem auOpt_eq_span (digit tail : Char → Bool)
    (hdot : ∀ c, digit c = true → (c == '.') = false)
    (hcom : ∀ c, digit c = true → (c == ',') = false)
    (hdt : ∀ c, digit c = true → tail c = false)
    (hdw : ∀ c, digit c = true → isWsChar c = false)
    (htw : ∀ c, tail c = true → isWsChar c = false)
    (htdot : tail '.' = false) (htcom : tail ',' = false)
    (hwdot : isWsChar '.' = false) (hwcom : isWsChar ',' = false)
    (hdsp : digit ' ' = false)
    (ip r1 : List Char) :
    auOpt digit tail ip r1 =
      spanTailPhase tail (ip ++ (spanOpt digit r1).1) (spanOpt digit r1).2 := by
  cases r1 with
  | nil =>
    show tryEach (optSplits digit []) _ = _
    rw [show optSplits digit [] = [(([] : List Char), ([] : List Char))] from rfl]
    rw [tryEach_singleton]
    show auTail tail (ip ++ []) [] = _
    rw [auTail_eq_spanTailPhase tail htw]
    rfl
  | cons c r =>
    by_cases hc : (c == '.' || c == ',') = true
    · have hcd : c = '.' ∨ c = ',' :=
        (Bool.or_eq_true _ _).mp hc |>.imp beq_iff_eq.mp beq_iff_eq.mp
      have htc : tail c = false := by rcases hcd with h | h <;> subst h <;> assumption
      have hwc : isWsChar c = false := by rcases hcd with h | h <;> subst h <;> assumption
      have hs : optSplits digit (c :: r) =
          ((plusSplits digit r).map (fun p => (c :: p.1, p.2))) ++ [([], c :: r)] := by
        simp [optSplits, hc]
      show tryEach (optSplits digit (c :: r)) _ = _
      rw [hs, tryEach_append, tryEach_map, tryEach_singleton]
      have hnone : auTail tail (ip ++ []) (c :: r) = none := by
        rw [auTail_eq_spanTailPhase tail htw]
        unfold spanTailPhase
        simp [List.dropWhile_cons, htc, List.all_cons, hwc]
      rw [hnone, Option.or_none]
      rw [tryEach_plusSplits digit r (fun p => auTail tail (ip ++ (c :: p.1)) p.2)
        (fun pre c2 r2 h2 => by
          show auTail tail (ip ++ (c :: pre)) (c2 :: r2) = none
          rw [auTail_eq_spanTailPhase tail htw]
          unfold spanTailPhase
          simp [List.dropWhile_cons, hdt c2 h2, List.all_cons, hdw c2 h2])]
      by_cases hd2 : digit (r.headD ' ') = true
      · have hne : (r.takeWhile digit).isEmpty = false := by
          cases r with
          | nil => exact absurd hd2 (by simp [hdsp])
          | cons c2 r2 =>
            have hd2c : digit c2 = true := by simpa using hd2
            simp [List.takeWhile_cons, hd2c, List.isEmpty_cons]
        rw [if_neg (by simp [hne])]
        rw [auTail_eq_spanTailPhase tail htw]
        have hd2g : digit (r.head?.getD ' ') = true := by simpa using hd2
        have hso : spanOpt digit (c :: r) = (c :: r.takeWhile digit, r.dropWhile digit) := by
          simp [spanOpt, hc, hd2g]
        rw [hso]
      · have hd2f : digit (r.headD ' ') = false := eq_false_of_ne_true hd2
        have hem : (r.takeWhile digit).isEmpty = true := by
          cases r with
          | nil => rfl
          | cons c2 r2 =>
            have hd2fc : digit c2 = false := by simpa using hd2f
            simp [List.takeWhile_cons, hd2fc, List.isEmpty_nil]
        rw [if_pos hem]
        have hd2g : digit (r.head?.getD ' ') = false := by simpa using hd2f
        have hso : spanOpt digit (c :: r) = ([], c :: r) := by
          simp [spanOpt, hd2g]
        rw [hso]
        rw [show spanTailPhase tail (ip ++ []) (c :: r) = none from by
          unfold spanTailPhase
          simp [List.dropWhile_cons, htc, List.all_cons, hwc]]
    · have hc2 : (c == '.' || c == ',') = false := eq_false_of_ne_true hc
      have hs : optSplits digit (c :: r) = [([], c :: r)] := by simp [optSplits, hc2]
      show tryEach (optSplits digit (c :: r)) _ = _
      rw [hs, tryEach_singleton]
      show auTail tail (ip ++ []) (c :: r) = _
      rw [auTail_eq_spanTailPhase tail htw]
      have hso : spanOpt digit (c :: r) = ([], c :: r) := by simp [spanOpt, hc2]
      rw [hso]

theorem auNum_eq_span (digit tail : Char → Bool)
    (hdot : ∀ c, digit c = true → (c == '.') = false)
    (hcom : ∀ c, digit c = true → (c == ',') = false)
    (hdt : ∀ c, digit c = true → tail c = false)
    (hdw : ∀ c, digit c = true → isWsChar c = false)
    (htw : ∀ c, tail c = true → isWsChar c = false)
    (htdot : tail '.' = false) (htcom : tail ',' = false)
    (hwdot : isWsChar '.' = false) (hwcom : isWsChar ',' = false)
    (hdsp : digit ' ' = false)
    (s1 : List Char) :
    auNum digit tail s1 =
      if (s1.takeWhile digit).isEmpty then none
      else
        spanTailPhase tail
          (s1.takeWhile digit ++ (spanOpt digit (s1.dropWhile digit)).1)
          (spanOpt digit (s1.dropWhile digit)).2 := by
  unfold auNum
  rw [tryEach_plusSplits digit s1 (fun pd => auOpt digit tail pd.1 pd.2)
    (fun pre c rest hcd => by
      show auOpt digit tail pre (c :: rest) = none
      rw [auOpt_eq_span digit tail hdot hcom hdt hdw htw htdot htcom hwdot hwcom hdsp]
      rw [show spanOpt digit (c :: rest) = ([], c :: rest) from by
        simp [spanOpt, hdot c hcd, hcom c hcd]]
      unfold spanTailPhase
      simp [List.dropWhile_cons, hdt c hcd, List.all_cons, hdw c hcd])]
  by_cases he : (s1.takeWhile digit).isEmpty = true
  · rw [if_pos he, if_pos he]
  · rw [if_neg he, if_neg he]
    exact auOpt_eq_span digit tail hdot hcom hdt hdw htw htdot htcom hwdot hwcom hdsp
      (s1.takeWhile digit) (s1.dropWhile digit)

theorem regexCapturesAU_eq_spanCapturesAU (digit tail : Char → Bool)
    (hwd : ∀ c, isWsChar c = true → digit c = false)
    (hdot : ∀ c, digit c = true → (c == '.') = false)
    (hcom : ∀ c, digit c = true → (c == ',') = false)
    (hdt : ∀ c, digit c = true → tail c = false)
    (hdw : ∀ c, digit c = true → isWsChar c = false)
    (htw : ∀ c, tail c = true → isWsChar c = false)
    (htdot : tail '.' = false) (htcom : tail ',' = false)
    (hwdot : isWsChar '.' = false) (hwcom : isWsChar ',' = false)
    (hdsp : digit ' ' = false)
    (s : List Char) :
    regexCapturesAU digit tail s = spanCapturesAU digit tail s := by
  unfold regexCapturesAU spanCapturesAU
  rw [tryEach_starSplits isWsChar s (fun p1 => auNum digit tail p1.2)
    (fun pre c rest hcw => by
      show auNum digit tail (c :: rest) = none
      rw [auNum_eq_span digit tail hdot hcom hdt hdw htw htdot htcom hwdot hwcom hdsp]
      rw [if_pos (by simp [List.takeWhile_cons, hwd c hcw, List.isEmpty])])]
  exact auNum_eq_span digit tail hdot hcom hdt hdw htw htdot htcom hwdot hwcom hdsp
    (s.dropWhile isWsChar)

theorem wsCode_ndCode_false (n : ℕ) (h : isWsCode n = true) : isNdCode n = false := by
  cases hn : isNdCode n
  · rfl
  · exfalso
    simp only [isNdCode, isWsCode, Bool.or_eq_true, Bool.and_eq_true,
      decide_eq_true_eq, beq_iff_eq] at h hn
    omega

theorem ndCode_wsCode_false (n : ℕ) (h : isNdCode n = true) : isWsCode n = false := by
  cases hw : isWsCode n
  · rfl
  · exact absurd h (by simp [wsCode_ndCode_false n hw])

theorem ndCode_tailCode_false (n : ℕ) (h : isNdCode n = true) : rustTailCode n = false := by
  cases ht : rustTailCode n
  · rfl
  · exfalso
    simp only [isNdCode, rustTailCode, Bool.or_eq_true, Bool.and_eq_true,
      decide_eq_true_eq, beq_iff_eq] at h ht
    omega

theorem tailCode_wsCode_false (n : ℕ) (h : rustTailCode n = true) : isWsCode n = false := by
  cases hw : isWsCode n
  · rfl
  · exfalso
    simp only [isWsCode, rustTailCode, Bool.or_eq_true, Bool.and_eq_true,
      decide_eq_true_eq, beq_iff_eq] at h hw
    omega

theorem isWsChar_isNdChar_false (c : Char) (h : isWsChar c = true) : isNdChar c = false :=
  wsCode_ndCode_false c.toNat h

theorem isNdChar_isWsChar_false (c : Char) (h : isNdChar c = true) : isWsChar c = false :=
  ndCode_wsCode_false c.toNat h

theorem isNdChar_rustTail_false (c : Char) (h : isNdChar c = true) :
    rustUnitTailChar c = false :=
  ndCode_tailCode_false c.toNat h

theorem rustTail_isWsChar_false (c : Char) (h : rustUnitTailChar c = true) :
    isWsChar c = false :=
  tailCode_wsCode_false c.toNat h

theorem isNdChar_beq_dot_false (c : Char) (h : isNdChar c = true) : (c == '.') = false := by
  cases hb : c == '.'
  · rfl
  · exfalso
    have hc : c = '.' := beq_iff_eq.mp hb
    subst hc
    exact absurd h (by decide)

theorem isNdChar_beq_comma_false (c : Char) (h : isNdChar c = true) : (c == ',') = false := by
  cases hb : c == ','
  · rfl
  · exfalso
    have hc : c = ',' := beq_iff_eq.mp hb
    subst hc
    exact absurd h (by decide)

theorem parse_amount_units_eq_rule (s : String) :
    parse_amount_units s = amountUnitsRule isNdChar rustUnitTailChar s := by
  simp only [parse_amount_units, amountUnitsRule]
  rw [regexCapturesAU_eq_spanCapturesAU isNdChar rustUnitTailChar
    isWsChar_isNdChar_false isNdChar_beq_dot_false isNdChar_beq_comma_false
    isNdChar_rustTail_false isNdChar_isWsChar_false rustTail_isWsChar_false
    (by decide) (by decide) (by decide) (by decide) (by decide)]

/-! ## Claim theorems -/

/-- Claim **C4** (counterexample).  The claim's regex has unit-tail class
`[\p{L}%]` (any Unicode letter) where the source has the case-folded
`[a-zа-я%]`, and digit class `[0-9]` where the source's `\d` is `\p{Nd}`.
Both legs diverge on concrete inputs: on `"5ё"` (`ё` is a Unicode letter
outside `а-я` and its fold closure) the claim's rule yields `(5.0, "ё")`
while the code falls through to the whitespace fallback and yields
`(1.0, "шт")`; on `"٥г"` (an Arabic-Indic digit, in `\p{Nd}` but not
`[0-9]`) the code's regex matches — the `f64` parse of the capture then
fails, defaulting the amount — and the code yields `(1.0, "г")`, while the
claim's rule yields `(1.0, "шт")`. -/
theorem parse_amount_units_spec_class_counterexample :
    (parse_amount_units "5ё" = (FloatVal.fin 1, "шт") ∧
      specAmountUnitsRule "5ё" = (FloatVal.fin 5, "ё")) ∧
    (parse_amount_units "٥г" = (FloatVal.fin 1, "г") ∧
      specAmountUnitsRule "٥г" = (FloatVal.fin 1, "шт")) ∧
    parse_amount_units "5ё" ≠ specAmountUnitsRule "5ё" ∧
    parse_amount_units "٥г" ≠ specAmountUnitsRule "٥г" := by
  refine ⟨⟨by decide, by decide⟩, ⟨by decide, by decide⟩, by decide, by decide⟩

/-- Claim **C4** (amended).  `parse_amount_units` follows the deterministic
rule of the claim with the regex read with the source's classes: the digit
class is the crate's `\d` (`\p{Nd}`, `isNdChar`), whitespace is Unicode
`White_Space` (`isWsChar`), the unit-tail class is `[a-zа-я%]` closed under
`(?i)` simple case folding (`rustUnitTailChar`), and the numeric capture is
parsed as `f64` with `1.0` on failure.  The equality holds for every input
string — proved between the source transcription (the backtracking regex
engine `regexCapturesAU`) and the rule's deterministic span scan
(`spanCapturesAU`) — and the six S1 examples follow. -/
theorem parse_amount_units_follows_rule :
    (∀ s : String, parse_amount_units s = amountUnitsRule isNdChar rustUnitTailChar s) ∧
    parse_amount_units "/100 г" = (FloatVal.fin 100, "г") ∧
    parse_amount_units "0,5 кг" = (FloatVal.fin ⟨1, 2⟩, "кг") ∧
    parse_amount_units "" = (FloatVal.fin 1, "шт") ∧
    parse_amount_units "abc" = (FloatVal.fin 1, "шт") ∧
    parse_amount_units "250мл" = (FloatVal.fin 250, "мл") ∧
    parse_amount_units "5%" = (FloatVal.fin 5, "%") :=
  ⟨parse_amount_units_eq_rule, by decide, by decide, by decide, by decide, by decide,
    by decide⟩

/-- Claim **C2** (counterexample).  A raw product whose only defect is a negative
`amount` is *not* dropped: `build_new_product` clears the amount to absent
and still returns the record. -/
theorem build_new_product_negative_amount_counterexample :
    build_new_product 1 "sku" "name" none none (FloatVal.fin 10)
        (some (FloatVal.fin ⟨-1, 1⟩)) none "url" [] =
      some ⟨1, "sku", "name", FloatVal.fin 10, none, none, none, none, "url", []⟩ ∧
    (build_new_product 1 "sku" "name" none none (FloatVal.fin 10)
        (some (FloatVal.fin ⟨-1, 1⟩)) none "url" []).isSome = true := by
  refine ⟨by decide, by decide⟩

/-- Claim **C2** (amended).  A non-finite, zero or negative price, or an empty
sku, name or url, drops the record (`build_new_product` returns `none`);
a non-finite, zero or negative `amount`, however, does not drop the record
— the amount field alone is cleared to absent, leaving the rest of the
record (and hence the rest of the batch, the function being per-record)
unaffected. -/
theorem build_new_product_validation (cid : ℤ) (sku name : String)
    (category units : Option String) (price : FloatVal) (amount : Option FloatVal)
    (description : Option String) (url : String) (images : List String) :
    (productPriceOk price = false ∨ sku = "" ∨ name = "" ∨ url = "" →
      build_new_product cid sku name category units price amount description url images = none) ∧
    (∀ a, amount = some a → (a.isFinite && FloatVal.fblt (FloatVal.fin 0) a) = false →
      build_new_product cid sku name category units price amount description url images =
        build_new_product cid sku name category units price none description url images) := by
  constructor
  · intro h
    unfold build_new_product
    split_ifs with h1 h2 h3 h4 h5
    · rfl
    · rfl
    · rfl
    · rfl
    · rfl
    · exfalso
      rcases h with h | h | h | h
      · simp_all
      · subst h; simp_all [identifierOk_empty]
      · subst h; simp_all [identifierOk_empty]
      · subst h; simp_all [identifierOk_empty]
  · intro a ha hbad
    subst ha
    unfold build_new_product
    split_ifs
    · rfl
    · rfl
    · rfl
    · rfl
    · rfl
    · simp [Option.filter, hbad]

/-- Claim **C2** (witness for `build_new_product_validation`): a zero price drops
the record, and an invalid amount is cleared rather than dropping it. -/
theorem build_new_product_validation_witness :
    build_new_product 1 "s" "n" none none (FloatVal.fin 0) none none "u" [] = none ∧
    build_new_product 1 "s" "n" none none (FloatVal.fin 10)
        (some (FloatVal.fin ⟨-1, 1⟩)) none "u" [] =
      build_new_product 1 "s" "n" none none (FloatVal.fin 10) none none "u" [] :=
  ⟨(build_new_product_validation 1 "s" "n" none none (FloatVal.fin 0) none none "u" []).1
      (Or.inl (by decide)),
   (build_new_product_validation 1 "s" "n" none none (FloatVal.fin 10)
        (some (FloatVal.fin ⟨-1, 1⟩)) none "u" []).2 (FloatVal.fin ⟨-1, 1⟩) rfl (by decide)⟩

/-- Claim **C5**.  With a stored blob, `load_or_generate_embedding` returns the
reinterpretation of the blob as 32-bit floats with `generated = false` and
performs no embedder call and no persist call; with no blob, the first
embedder result is L2-normalised, persisted, and returned with
`generated = true`.  (Being a function of its argument, the blob path is
deterministic.) -/
theorem load_or_generate_embedding_cache
    (sqrtF : FloatVal → FloatVal) (blob : List Nat) (prompt : String)
    (embedder : String → Except String (List (List FloatVal)))
    (persist : List FloatVal → Except String Unit) :
    (∀ v, castSliceF32 blob = some v →
      load_or_generate_embedding sqrtF (some blob) prompt embedder persist =
        some ⟨Except.ok (v, false), [], []⟩) ∧
    (∀ v vs, embedder prompt = Except.ok (v :: vs) →
      persist (normalize_embedding sqrtF v) = Except.ok () →
      load_or_generate_embedding sqrtF none prompt embedder persist =
        some ⟨Except.ok (normalize_embedding sqrtF v, true), [prompt],
          [normalize_embedding sqrtF v]⟩) := by
  constructor
  · intro v hv
    simp [load_or_generate_embedding, hv]
  · intro v vs hv hp
    simp [load_or_generate_embedding, hv, hp]

/-- Claim **C5** (witness for `load_or_generate_embedding_cache`): the blob of
`[1.0]` is returned decoded with no calls made; with no blob, the embedder
result `[1.0, 0.0]` is normalised, persisted and flagged generated. -/
theorem load_or_generate_embedding_cache_witness :
    load_or_generate_embedding sqrtOne (some [0, 0, 128, 63]) "p"
        (fun _ => Except.error "e") (fun _ => Except.ok ()) =
      some ⟨Except.ok ([FloatVal.fin 1], false), [], []⟩ ∧
    load_or_generate_embedding sqrtOne none "p"
        (fun _ => Except.ok [[FloatVal.fin 1, FloatVal.fin 0]]) (fun _ => Except.ok ()) =
      some ⟨Except.ok (normalize_embedding sqrtOne [FloatVal.fin 1, FloatVal.fin 0], true), ["p"],
        [normalize_embedding sqrtOne [FloatVal.fin 1, FloatVal.fin 0]]⟩ :=
  ⟨(load_or_generate_embedding_cache sqrtOne [0, 0, 128, 63] "p"
      (fun _ => Except.error "e") (fun _ => Except.ok ())).1 [FloatVal.fin 1] (by decide),
   (load_or_generate_embedding_cache sqrtOne [] "p"
      (fun _ => Except.ok [[FloatVal.fin 1, FloatVal.fin 0]]) (fun _ => Except.ok ())).2
     [FloatVal.fin 1, FloatVal.fin 0] [] rfl rfl⟩

/-- Claim **C7**.  A product row whose `category_assignment_source` is `Manual`
is untouched by both `set_product_category_automatic` and
`clear_product_categories_by_crawler` — its row survives unchanged at its
position, it never satisfies either update's row filter, and it
contributes nothing to either affected-row count. -/
theorem category_match_manual_immutable
    (now pid crid : ℤ) (c : Option ℤ) (tbl : List ProductRow) (i : ℕ) (r : ProductRow)
    (hr : tbl[i]? = some r)
    (hm : r.category_assignment_source = CategoryAssignmentSource.manual) :
    (set_product_category_automatic now pid c tbl).1[i]? = some r ∧
    (clear_product_categories_by_crawler now crid tbl).1[i]? = some r ∧
    autoTouches pid r = false ∧ clearTouches crid r = false ∧
    (set_product_category_automatic now pid c (r :: tbl)).2 =
      (set_product_category_automatic now pid c tbl).2 ∧
    (clear_product_categories_by_crawler now crid (r :: tbl)).2 =
      (clear_product_categories_by_crawler now crid tbl).2 := by
  have hauto : autoTouches pid r = false := by simp [autoTouches, hm]
  have hclear : clearTouches crid r = false := by simp [clearTouches, hm]
  refine ⟨?_, ?_, hauto, hclear, ?_, ?_⟩
  · simp [set_product_category_automatic, List.getElem?_map, hr, hauto]
  · simp [clear_product_categories_by_crawler, List.getElem?_map, hr, hclear]
  · simp [set_product_category_automatic, List.countP_cons, hauto]
  · simp [clear_product_categories_by_crawler, List.countP_cons, hclear]

/-- Claim **C7** (witness for `category_match_manual_immutable`): the manual row
of the fixture table is untouched by both updates. -/
theorem category_match_manual_immutable_witness :
    (set_product_category_automatic 200 3 (some 1) [rowManual, rowAuto]).1[0]? = some rowManual ∧
    (clear_product_categories_by_crawler 200 1 [rowManual, rowAuto]).1[0]? = some rowManual ∧
    autoTouches 3 rowManual = false ∧ clearTouches 1 rowManual = false ∧
    (set_product_category_automatic 200 3 (some 1) (rowManual :: [rowManual, rowAuto])).2 =
      (set_product_category_automatic 200 3 (some 1) [rowManual, rowAuto]).2 ∧
    (clear_product_categories_by_crawler 200 1 (rowManual :: [rowManual, rowAuto])).2 =
      (clear_product_categories_by_crawler 200 1 [rowManual, rowAuto]).2 :=
  category_match_manual_immutable 200 3 1 (some 1) [rowManual, rowAuto] 0 rowManual
    (by decide) (by decide)

/-- Claim **C10**.  For a product row that is not manually assigned,
`set_product_category_automatic` always stores the given `category_id`
(including absent), stamps `category_assignment_source := Automatic` and
touches `updated_at` — clearing is itself recorded as an automatic
assignment with a refreshed timestamp. -/
theorem set_product_category_automatic_records_clear
    (now pid : ℤ) (c : Option ℤ) (tbl : List ProductRow) (i : ℕ) (r : ProductRow)
    (hr : tbl[i]? = some r) (hid : r.id = pid)
    (hm : r.category_assignment_source ≠ CategoryAssignmentSource.manual) :
    (set_product_category_automatic now pid c tbl).1[i]? =
      some { r with category_id := c,
                    category_assignment_source := CategoryAssignmentSource.automatic,
                    updated_at := now } := by
  have h : autoTouches pid r = true := by simp [autoTouches, hid, hm]
  simp [set_product_category_automatic, List.getElem?_map, hr, h]

/-- Claim **C10** (witness for `set_product_category_automatic_records_clear`):
clearing the automatic row of the fixture table records source Automatic
and the new timestamp. -/
theorem set_product_category_automatic_records_clear_witness :
    (set_product_category_automatic 200 4 none [rowManual, rowAuto]).1[1]? =
      some { rowAuto with category_id := none,
                          category_assignment_source := CategoryAssignmentSource.automatic,
                          updated_at := 200 } :=
  set_product_category_automatic_records_clear 200 4 none [rowManual, rowAuto] 1 rowAuto
    (by decide) (by decide) (by decide)

/-- Claim **C8**.  The processing guard: (1) when the hub already shows
processing activity the run returns `Ok(None)` having performed no flag
write at all; (2) when the claim succeeds (both set-true calls go through),
every exit path — job success or job failure alike — issues the
crawler-flag and benchmark-flag release calls, and when those succeed the
final flag state is all-false; (3) when setting the benchmark flags fails
after the crawler flags were set, the run fails, the crawler flags are
rolled back, and (the rollback succeeding) the final flag state is again
all-false. -/
theorem guard_claim_and_release (T : Type) (env : GuardEnv) (st : GuardState)
    (job : Except Unit T) :
    ((st.crawlers || st.benchmarks) = true → env.hasAnyOk = true →
      run_with_hub_processing_guard env st job = (Except.ok none, st, [])) ∧
    (st.crawlers = false → st.benchmarks = false → env.hasAnyOk = true →
      env.setCrawlersTrueOk = true → env.setBenchTrueOk = true →
      (GuardEvent.setCrawlers false env.setCrawlersFalseOk ∈
          (run_with_hub_processing_guard env st job).2.2 ∧
        GuardEvent.setBenchmarks false env.setBenchFalseOk ∈
          (run_with_hub_processing_guard env st job).2.2) ∧
      (env.setCrawlersFalseOk = true → env.setBenchFalseOk = true →
        (run_with_hub_processing_guard env st job).2.1 = ⟨false, false⟩)) ∧
    (st.crawlers = false → st.benchmarks = false → env.hasAnyOk = true →
      env.setCrawlersTrueOk = true → env.setBenchTrueOk = false →
      (run_with_hub_processing_guard env st job).1 = Except.error () ∧
      GuardEvent.setCrawlers false env.setCrawlersFalseOk ∈
        (run_with_hub_processing_guard env st job).2.2 ∧
      (env.setCrawlersFalseOk = true →
        (run_with_hub_processing_guard env st job).2.1 = ⟨false, false⟩)) := by
  refine ⟨?_, ?_, ?_⟩
  · intro h1 h2
    simp [run_with_hub_processing_guard, h1, h2]
  · intro hc hb h1 h2 h3
    cases hcf : env.setCrawlersFalseOk <;> cases hbf : env.setBenchFalseOk <;>
      cases job <;>
        simp [run_with_hub_processing_guard, hc, hb, h1, h2, h3, hcf, hbf]
  · intro hc hb h1 h2 h3
    cases hcf : env.setCrawlersFalseOk <;>
      simp [run_with_hub_processing_guard, hc, hb, h1, h2, h3, hcf]

/-- Claim **C8** (witness for `guard_claim_and_release`): an already-active hub
is skipped without writes; an all-successful claim releases both flag sets;
a failing benchmark-flag claim fails the run with the crawler flags rolled
back. -/
theorem guard_claim_and_release_witness :
    run_with_hub_processing_guard ⟨true, true, true, true, true⟩ ⟨true, false⟩
        (Except.ok ()) = (Except.ok none, ⟨true, false⟩, []) ∧
    GuardEvent.setCrawlers false true ∈
      (run_with_hub_processing_guard ⟨true, true, true, true, true⟩ ⟨false, false⟩
        (Except.ok ())).2.2 ∧
    GuardEvent.setBenchmarks false true ∈
      (run_with_hub_processing_guard ⟨true, true, true, true, true⟩ ⟨false, false⟩
        (Except.ok ())).2.2 ∧
    (run_with_hub_processing_guard ⟨true, true, true, true, true⟩ ⟨false, false⟩
        (Except.ok ())).2.1 = ⟨false, false⟩ ∧
    (run_with_hub_processing_guard ⟨true, true, false, true, true⟩ ⟨false, false⟩
        (Except.ok ())).1 = Except.error () ∧
    (run_with_hub_processing_guard ⟨true, true, false, true, true⟩ ⟨false, false⟩
        (Except.ok ())).2.1 = ⟨false, false⟩ := by
  have h1 := guard_claim_and_release Unit ⟨true, true, true, true, true⟩ ⟨true, false⟩
    (Except.ok ())
  have h2 := guard_claim_and_release Unit ⟨true, true, true, true, true⟩ ⟨false, false⟩
    (Except.ok ())
  have h3 := guard_claim_and_release Unit ⟨true, true, false, true, true⟩ ⟨false, false⟩
    (Except.ok ())
  exact ⟨h1.1 rfl rfl, (h2.2.1 rfl rfl rfl rfl rfl).1.1, (h2.2.1 rfl rfl rfl rfl rfl).1.2,
    (h2.2.1 rfl rfl rfl rfl rfl).2 rfl rfl, (h3.2.2 rfl rfl rfl rfl rfl).1,
    (h3.2.2 rfl rfl rfl rfl rfl).2.2 rfl⟩

/-- Claim **C3** (counterexample).  A run that claims the benchmark (its
`processing` was false and the set-true call succeeds) and then aborts
immediately because the embedder fails to initialise performs no core
writes — yet its final `processing` flag is `false`: the unconditional
`update_benchmark_stats` call after `process_benchmark` resets it.  The
claim says such a run leaves the flag `true`. -/
theorem benchmark_processing_reset_counterexample :
    envC3.embedderInitOk = false ∧ bC1.processing = false ∧
    envC3.setProcessingOk = true ∧
    process_benchmark envC3 bC1 = [] ∧
    process_benchmark_message envC3 = (some false, []) := by
  refine ⟨rfl, rfl, rfl, by decide, by decide⟩

/-- Claim **C3** (amended).  After a benchmark run claims the flag, the final
`update_benchmark_stats` call runs even when the core run aborted mid-way
(embedder initialisation failure, embedding failure, or repository error):
the `processing` flag therefore ends `false` exactly when that final stats
call succeeds, and stays `true` only when it fails. -/
theorem benchmark_processing_reset_amended (env : BenchEnv) (b : BenchmarkRec)
    (hget : env.getBenchmark = Except.ok b) (hproc : b.processing = false)
    (hset : env.setProcessingOk = true) :
    ((process_benchmark_message env).1 = some false ↔ env.updateStatsOk = true) := by
  cases hu : env.updateStatsOk <;>
    simp [process_benchmark_message, hget, hproc, hset, hu]

/-- Claim **C3** (witness for `benchmark_processing_reset_amended`): the aborting
fixture run ends with `processing = false` because its stats call
succeeds. -/
theorem benchmark_processing_reset_amended_witness :
    (process_benchmark_message envC3).1 = some false ↔ envC3.updateStatsOk = true :=
  benchmark_processing_reset_amended envC3 bC1 rfl rfl rfl

theorem writtenAssociations_append (l l' : List BenchEvent) :
    writtenAssociations (l ++ l') = writtenAssociations l ++ writtenAssociations l' := by
  simp [writtenAssociations]

theorem writtenAssociations_benchProductStep (env : BenchEnv) (p : ProductRec) :
    writtenAssociations (benchProductStep env p).1 = [] := by
  unfold benchProductStep
  rcases hpe : p.embedding with _ | blob
  · simp only [hpe]
    rcases he : env.embed (product_embedding_prompt p.name p.sku (p.category.getD "")
        (p.units.getD "") p.price (p.amount.getD (FloatVal.fin 0)) (p.description.getD ""))
      with e | rs
    · simp [he, writtenAssociations]
    · by_cases hok : env.setProductEmbeddingOk p.id <;> simp [he, hok, writtenAssociations]
  · simp only [hpe]
    rcases hc : castSliceF32 blob with _ | v <;> simp [hc, writtenAssociations]

theorem writtenAssociations_benchEmbeddingStep (env : BenchEnv) (b : BenchmarkRec) :
    writtenAssociations (benchEmbeddingStep env b).1 = [] := by
  unfold benchEmbeddingStep
  rcases hpe : b.embedding with _ | blob
  · simp only [hpe]
    rcases he : env.embed (product_embedding_prompt b.name b.sku b.category b.units b.price
        b.amount b.description) with e | rs
    · simp [he, writtenAssociations]
    · by_cases hok : env.setBenchmarkEmbeddingOk <;> simp [he, hok, writtenAssociations]
  · simp only [hpe]
    rcases hc : castSliceF32 blob with _ | v <;> simp [hc, writtenAssociations]

theorem writtenAssociations_benchProductEmbeddings (env : BenchEnv) (ps : List ProductRec) :
    writtenAssociations (benchProductEmbeddings env ps).1 = [] := by
  induction ps with
  | nil => rfl
  | cons p rest ih =>
    unfold benchProductEmbeddings
    rcases hs : benchProductStep env p with ⟨evs, res⟩
    have hevs : writtenAssociations evs = [] := by
      have h := writtenAssociations_benchProductStep env p
      rw [hs] at h
      exact h
    rcases res with _ | e
    · simpa using hevs
    · rcases hr : benchProductEmbeddings env rest with ⟨evs', res'⟩
      have hevs' : writtenAssociations evs' = [] := by
        rw [hr] at ih
        exact ih
      simp [writtenAssociations_append, hevs, hevs']

theorem writtenAssociations_nil : writtenAssociations [] = [] := rfl

theorem writtenAssociations_cons_assoc (b p : ℤ) (v : FloatVal) (l : List BenchEvent) :
    writtenAssociations (BenchEvent.setAssociation b p v :: l) =
      (b, p, v) :: writtenAssociations l := rfl

theorem writtenAssociations_cons_remove (b : ℤ) (l : List BenchEvent) :
    writtenAssociations (BenchEvent.removeAssociations b :: l) = writtenAssociations l := rfl

theorem benchAssociationWrites_bounds (env : BenchEnv) (bid : ℤ) (l : List (ℤ × FloatVal)) :
    (writtenAssociations (benchAssociationWrites env bid l).1).length ≤ l.length ∧
    ∀ a ∈ writtenAssociations (benchAssociationWrites env bid l).1,
      FloatVal.fblt a.2.2 SIMILARITY_THRESHOLD = false := by
  induction l with
  | nil =>
    exact ⟨by simp [benchAssociationWrites, writtenAssociations_nil],
      by simp [benchAssociationWrites, writtenAssociations_nil]⟩
  | cons x rest ih =>
    rcases x with ⟨key, d⟩
    rcases hr : benchAssociationWrites env bid rest with ⟨evs, ok⟩
    rw [hr] at ih
    unfold benchAssociationWrites
    by_cases hlt : FloatVal.fblt (FloatVal.fsub (FloatVal.fin 1) d) SIMILARITY_THRESHOLD
    · rw [hr]
      simp only [hlt, if_true]
      exact ⟨le_trans ih.1 (Nat.le_succ _), ih.2⟩
    · have hlt' : FloatVal.fblt (FloatVal.fsub (FloatVal.fin 1) d) SIMILARITY_THRESHOLD = false :=
        eq_false_of_ne_true hlt
      by_cases hok : env.setAssociationOk key
      · rw [hr]
        simp only [hlt', Bool.false_eq_true, if_false, hok, if_true,
          writtenAssociations_cons_assoc]
        refine ⟨Nat.succ_le_succ ih.1, ?_⟩
        intro a ha
        rcases List.mem_cons.mp ha with h | h
        · subst h
          exact hlt'
        · exact ih.2 a h
      · simp only [hlt', Bool.false_eq_true, if_false, hok, writtenAssociations_nil]
        exact ⟨by simp, by simp⟩

theorem search_top_10_length_le (sqrtF : FloatVal → FloatVal) (q : List FloatVal)
    (items : List (ℤ × List FloatVal)) : (search_top_10 sqrtF q items).length ≤ 10 := by
  unfold search_top_10
  exact List.length_take_le _ _

theorem benchCrawlerStep_bounds (env : BenchEnv) (bid : ℤ) (bemb : List FloatVal)
    (c : CrawlerRec) :
    (writtenAssociations (benchCrawlerStep env bid bemb c).1).length ≤ 10 ∧
    ∀ a ∈ writtenAssociations (benchCrawlerStep env bid bemb c).1,
      FloatVal.fblt a.2.2 SIMILARITY_THRESHOLD = false := by
  rcases hl : env.listProducts c.id with e | ps
  · have heq : benchCrawlerStep env bid bemb c = ([], false) := by
      unfold benchCrawlerStep
      rw [hl]
    rw [heq]
    exact ⟨by simp [writtenAssociations_nil], by simp [writtenAssociations_nil]⟩
  · have heq : benchCrawlerStep env bid bemb c =
        (match benchProductEmbeddings env ps with
        | (evs, none) => (evs, false)
        | (evs, some candidates) =>
          match benchAssociationWrites env bid (search_top_10 env.sqrtF bemb candidates) with
          | (aevs, ok) => (evs ++ aevs, ok)) := by
      unfold benchCrawlerStep
      rw [hl]
    rw [heq]
    rcases hpe : benchProductEmbeddings env ps with ⟨evs, res⟩
    have hevs : writtenAssociations evs = [] := by
      have h := writtenAssociations_benchProductEmbeddings env ps
      rw [hpe] at h
      exact h
    rcases res with _ | cands
    · refine ⟨?_, ?_⟩
      · show (writtenAssociations evs).length ≤ 10
        rw [hevs]
        simp
      · show ∀ a ∈ writtenAssociations evs, FloatVal.fblt a.2.2 SIMILARITY_THRESHOLD = false
        intro a ha
        rw [hevs] at ha
        cases ha
    · refine ⟨?_, ?_⟩
      · show (writtenAssociations
            (match benchAssociationWrites env bid (search_top_10 env.sqrtF bemb cands) with
            | (aevs, ok) => (evs ++ aevs, ok)).1).length ≤ 10
        rcases haw : benchAssociationWrites env bid (search_top_10 env.sqrtF bemb cands)
          with ⟨aevs, ok⟩
        have hbounds := benchAssociationWrites_bounds env bid
          (search_top_10 env.sqrtF bemb cands)
        rw [haw] at hbounds
        have hlen : (writtenAssociations aevs).length ≤ 10 :=
          le_trans hbounds.1 (search_top_10_length_le _ _ _)
        show (writtenAssociations (evs ++ aevs)).length ≤ 10
        rw [writtenAssociations_append, hevs]
        simpa using hlen
      · show ∀ a ∈ writtenAssociations
            (match benchAssociationWrites env bid (search_top_10 env.sqrtF bemb cands) with
            | (aevs, ok) => (evs ++ aevs, ok)).1,
          FloatVal.fblt a.2.2 SIMILARITY_THRESHOLD = false
        rcases haw : benchAssociationWrites env bid (search_top_10 env.sqrtF bemb cands)
          with ⟨aevs, ok⟩
        have hbounds := benchAssociationWrites_bounds env bid
          (search_top_10 env.sqrtF bemb cands)
        rw [haw] at hbounds
        show ∀ a ∈ writtenAssociations (evs ++ aevs),
          FloatVal.fblt a.2.2 SIMILARITY_THRESHOLD = false
        intro a ha
        rw [writtenAssociations_append, hevs] at ha
        exact hbounds.2 a (by simpa using ha)

theorem benchCrawlerLoop_bounds (env : BenchEnv) (bid : ℤ) (bemb : List FloatVal)
    (cs : List CrawlerRec) :
    (writtenAssociations (benchCrawlerLoop env bid bemb cs)).length ≤ 10 * cs.length ∧
    ∀ a ∈ writtenAssociations (benchCrawlerLoop env bid bemb cs),
      FloatVal.fblt a.2.2 SIMILARITY_THRESHOLD = false := by
  induction cs with
  | nil => exact ⟨by simp [benchCrawlerLoop, writtenAssociations_nil],
      by simp [benchCrawlerLoop, writtenAssociations_nil]⟩
  | cons c rest ih =>
    unfold benchCrawlerLoop
    rcases hs : benchCrawlerStep env bid bemb c with ⟨evs, ok⟩
    have hstep := benchCrawlerStep_bounds env bid bemb c
    rw [hs] at hstep
    cases ok
    · have h10 : (writtenAssociations evs).length ≤ 10 := hstep.1
      refine ⟨?_, ?_⟩
      · show (writtenAssociations evs).length ≤ 10 * (c :: rest).length
        simp only [List.length_cons]
        omega
      · show ∀ a ∈ writtenAssociations evs, FloatVal.fblt a.2.2 SIMILARITY_THRESHOLD = false
        exact hstep.2
    · have h10 : (writtenAssociations evs).length ≤ 10 := hstep.1
      have hmem : ∀ a ∈ writtenAssociations evs,
          FloatVal.fblt a.2.2 SIMILARITY_THRESHOLD = false := hstep.2
      refine ⟨?_, ?_⟩
      · show (writtenAssociations (evs ++ benchCrawlerLoop env bid bemb rest)).length ≤
          10 * (c :: rest).length
        rw [writtenAssociations_append]
        have hrest := ih.1
        simp only [List.length_append, List.length_cons]
        omega
      · show ∀ a ∈ writtenAssociations (evs ++ benchCrawlerLoop env bid bemb rest),
          FloatVal.fblt a.2.2 SIMILARITY_THRESHOLD = false
        intro a ha
        rw [writtenAssociations_append] at ha
        rcases List.mem_append.mp ha with h | h
        · exact hmem a h
        · exact ih.2 a h

/-- Claim **C1** (counterexample).  A benchmark run over one crawler with one
product whose embedding equals the benchmark's writes exactly one
association, and the value stored in its `distance` field is `1.0` — the
*similarity* `1 − 0` of the match, rebound over the loop variable — so
`1 − stored = 0 < 0.80`: the claim's assertion that every stored value `v`
satisfies `1 − v ≥ 0.80` (and that `v` is the cosine distance) fails. -/
theorem benchmark_association_stores_similarity_counterexample :
    writtenAssociations (process_benchmark envC1 bC1) = [(10, 7, FloatVal.fin 1)] ∧
    FloatVal.fblt (FloatVal.fsub (FloatVal.fin 1) (FloatVal.fin 1)) SIMILARITY_THRESHOLD
      = true := by
  refine ⟨by decide, by decide⟩

/-- Claim **C1** (amended).  Per benchmark run, at most `10 × |crawlers|`
associations are written (at most 10 per crawler), and every stored value
is the *similarity* `1 − cosine distance` of its match, written only when
it clears the 0.80 threshold — so every stored value `v` satisfies
`¬(v < 0.80)` (not `1 − v ≥ 0.80` as the claim stated). -/
theorem benchmark_associations_cap_and_similarity (env : BenchEnv) (b : BenchmarkRec)
    (cs : List CrawlerRec) (hcs : env.listCrawlers = Except.ok cs) :
    (writtenAssociations (process_benchmark env b)).length ≤ 10 * cs.length ∧
    ∀ a ∈ writtenAssociations (process_benchmark env b),
      FloatVal.fblt a.2.2 SIMILARITY_THRESHOLD = false := by
  unfold process_benchmark
  cases hinit : env.embedderInitOk
  · simp [writtenAssociations_nil]
  · simp only [hinit, Bool.not_true, Bool.false_eq_true, if_false]
    rcases hb : benchEmbeddingStep env b with ⟨evs, res⟩
    have hevs : writtenAssociations evs = [] := by
      have h := writtenAssociations_benchEmbeddingStep env b
      rw [hb] at h
      exact h
    rcases res with _ | bemb
    · refine ⟨?_, ?_⟩
      · show (writtenAssociations evs).length ≤ 10 * cs.length
        rw [hevs]
        simp
      · show ∀ a ∈ writtenAssociations evs, FloatVal.fblt a.2.2 SIMILARITY_THRESHOLD = false
        intro a ha
        rw [hevs] at ha
        cases ha
    · rw [hcs]
      show (writtenAssociations
          (if env.removeAssociationsOk = true then
            evs ++ BenchEvent.removeAssociations b.id :: benchCrawlerLoop env b.id bemb cs
          else evs)).length ≤ 10 * cs.length ∧
        ∀ a ∈ writtenAssociations
          (if env.removeAssociationsOk = true then
            evs ++ BenchEvent.removeAssociations b.id :: benchCrawlerLoop env b.id bemb cs
          else evs),
          FloatVal.fblt a.2.2 SIMILARITY_THRESHOLD = false
      by_cases hrm : env.removeAssociationsOk = true
      · rw [if_pos hrm]
        have hloop := benchCrawlerLoop_bounds env b.id bemb cs
        simp only [writtenAssociations_append, hevs, writtenAssociations_cons_remove,
          List.nil_append]
        exact ⟨hloop.1, hloop.2⟩
      · rw [if_neg hrm]
        refine ⟨?_, ?_⟩
        · rw [hevs]
          simp
        · intro a ha
          rw [hevs] at ha
          cases ha

/-- Claim **C1** (witness for `benchmark_associations_cap_and_similarity`): the
fixture run writes one association for its one crawler, within the cap and
above the threshold. -/
theorem benchmark_associations_cap_witness :
    (writtenAssociations (process_benchmark envC1 bC1)).length ≤
      10 * [(⟨1, "crawler"⟩ : CrawlerRec)].length ∧
    ∀ a ∈ writtenAssociations (process_benchmark envC1 bC1),
      FloatVal.fblt a.2.2 SIMILARITY_THRESHOLD = false :=
  benchmark_associations_cap_and_similarity envC1 bC1 [⟨1, "crawler"⟩] rfl

theorem search_top_k_nil (sqrtF : FloatVal → FloatVal) (q : List FloatVal) (k : ℕ) :
    search_top_k sqrtF q [] k = [] := rfl

theorem catProductLoop_empty_candidates (env : CatEnv) (ps : List ProductRec) :
    ∀ stats : MatchStats,
    (∀ pid c, CatEvent.setProductCategoryAuto pid c ∈ (catProductLoop env [] ps stats).1 →
      c = none) ∧
    (∀ stats', (catProductLoop env [] ps stats).2 = Except.ok stats' →
      stats'.matched = stats.matched ∧ stats'.products_loaded = stats.products_loaded ∧
      (catProductLoop env [] ps stats).1.countP isAutoEvent = ps.length) := by
  induction ps with
  | nil =>
    intro stats
    refine ⟨?_, ?_⟩
    · intro pid c hc
      exact absurd hc (List.not_mem_nil _)
    · intro stats' h
      obtain rfl : stats = stats' := Except.ok.inj h
      exact ⟨rfl, rfl, rfl⟩
  | cons p rest ih =>
    intro stats
    unfold catProductLoop
    rcases hload : load_or_generate_embedding env.sqrtF p.embedding
        (product_embedding_prompt p.name p.sku (p.category.getD "") (p.units.getD "")
          p.price (p.amount.getD (FloatVal.fin 0)) (p.description.getD "")) env.embed
        (fun _ => if env.setProductEmbeddingOk p.id then Except.ok () else Except.error "persist")
      with _ | out
    · refine ⟨?_, ?_⟩
      · intro pid c hc
        exact absurd hc (List.not_mem_nil _)
      · intro stats' h
        exact Except.noConfusion h
    · simp only []
      rcases hres : out.result with e | pe
      · refine ⟨?_, ?_⟩
        · intro pid c hc
          exact absurd hc (List.not_mem_nil _)
        · intro stats' h
          exact Except.noConfusion h
      · rcases pe with ⟨pemb, generated⟩
        simp only []
        by_cases hok : env.setProductCategoryOk p.id = true
        · cases generated
          · refine ⟨?_, ?_⟩
            · intro pid c hc
              simp only [search_top_k_nil, List.head?_nil, if_pos hok, Bool.false_eq_true,
                if_false, List.nil_append, List.mem_cons] at hc
              rcases hc with h | h
              · exact (CatEvent.setProductCategoryAuto.inj h).2
              · exact (ih _).1 pid c h
            · intro stats' h
              simp only [search_top_k_nil, List.head?_nil, if_pos hok, Bool.false_eq_true,
                if_false] at h
              obtain ⟨h1, h2, h3⟩ := (ih _).2 stats' h
              refine ⟨by simpa using h1, by simpa using h2, ?_⟩
              simp only [search_top_k_nil, List.head?_nil, if_pos hok, Bool.false_eq_true,
                if_false, List.nil_append, List.countP_cons, isAutoEvent]
              simpa using h3
          · refine ⟨?_, ?_⟩
            · intro pid c hc
              simp only [search_top_k_nil, List.head?_nil, if_pos hok, if_true,
                List.singleton_append, List.mem_cons] at hc
              rcases hc with h | h | h
              · exact absurd h (by simp)
              · exact (CatEvent.setProductCategoryAuto.inj h).2
              · exact (ih _).1 pid c h
            · intro stats' h
              simp only [search_top_k_nil, List.head?_nil, if_pos hok, if_true] at h
              obtain ⟨h1, h2, h3⟩ := (ih _).2 stats' h
              refine ⟨by simpa using h1, by simpa using h2, ?_⟩
              simp only [search_top_k_nil, List.head?_nil, if_pos hok, if_true,
                List.singleton_append, List.countP_cons, isAutoEvent]
              simpa using h3
        · cases generated
          · refine ⟨?_, ?_⟩
            · intro pid c hc
              simp only [search_top_k_nil, List.head?_nil, if_neg hok, Bool.false_eq_true,
                if_false] at hc
              exact absurd hc (List.not_mem_nil _)
            · intro stats' h
              simp only [search_top_k_nil, List.head?_nil, if_neg hok] at h
              exact Except.noConfusion h
          · refine ⟨?_, ?_⟩
            · intro pid c hc
              simp only [search_top_k_nil, List.head?_nil, if_neg hok, if_true,
                List.mem_singleton] at hc
              exact absurd hc (by simp)
            · intro stats' h
              simp only [search_top_k_nil, List.head?_nil, if_neg hok] at h
              exact Except.noConfusion h

/-- Claim **C6**.  A successful Category-Match run over an empty category
directory matches zero products, warns when the tenant has products, and
writes only absent assignments — one `set_product_category_automatic`
write per loaded product, each clearing the assignment. -/
theorem category_match_empty_directory (env : CatEnv) (stats : MatchStats)
    (hcat : env.listCategories = Except.ok [])
    (hok : (process_product_category_match env).2 = Except.ok stats) :
    stats.matched = 0 ∧
    (0 < stats.products_loaded →
      CatEvent.warnNoCategories ∈ (process_product_category_match env).1) ∧
    (∀ pid c, CatEvent.setProductCategoryAuto pid c ∈ (process_product_category_match env).1 →
      c = none) ∧
    (process_product_category_match env).1.countP isAutoEvent = stats.products_loaded := by
  unfold process_product_category_match at hok ⊢
  cases hinit : env.embedderInitOk
  · rw [hinit] at hok
    simp at hok
  · simp only [hinit, Bool.not_true, Bool.false_eq_true, if_false] at hok ⊢
    rcases hlc : env.listCrawlers with e | crawlers
    · rw [hlc] at hok
      simp at hok
    · simp only [hlc] at hok ⊢
      rcases hgp : catGatherProducts env crawlers with e' | products
      · rw [hgp] at hok
        simp at hok
      · simp only [hgp, hcat, catCategoryLoop, List.length_nil] at hok ⊢
        have hpair := catProductLoop_empty_candidates env products
          { categories_loaded := 0,
            products_loaded := products.length, category_embeddings_generated := 0,
            product_embeddings_generated := 0, matched := 0, unmatched := 0,
            skipped_below_threshold := 0, skipped_invalid_category_id := 0,
            skipped_no_category_candidate := 0 }
        obtain ⟨h1, h2, h3⟩ := hpair.2 stats hok
        have hauto := hpair.1
        have h2' : stats.products_loaded = products.length := by simpa using h2
        refine ⟨?_, ?_, ?_, ?_⟩
        · simpa using h1
        · intro hpos
          have hlen : 0 < products.length := by omega
          have hdec : decide (0 < products.length) = true := decide_eq_true hlen
          simp [hdec]
        · intro pid c hc
          simp only [List.nil_append, List.mem_append] at hc
          rcases hc with hc | hc
          · cases hd : decide (0 < products.length) <;> simp [hd] at hc
          · exact hauto pid c hc
        · cases hd : decide (0 < products.length) <;>
            simp [hd, List.countP_append, List.countP_nil, isAutoEvent, h3, h2']

/-- Claim **C6** (witness for `category_match_empty_directory`): the fixture run
over an empty directory warns, matches nothing and clears its one
product. -/
theorem category_match_empty_directory_witness :
    statsC6.matched = 0 ∧
    (0 < statsC6.products_loaded →
      CatEvent.warnNoCategories ∈ (process_product_category_match envC6).1) ∧
    (∀ pid c, CatEvent.setProductCategoryAuto pid c ∈ (process_product_category_match envC6).1 →
      c = none) ∧
    (process_product_category_match envC6).1.countP isAutoEvent = statsC6.products_loaded :=
  category_match_empty_directory envC6 statsC6 rfl (by decide)

theorem filter_images_replace_same (i : ℤ) (urls : List String) (imgs : List (ℤ × String)) :
    ((replace_product_images i urls imgs).filter (fun e => e.1 == i)).map (fun e => e.2) =
      urls := by
  unfold replace_product_images
  rw [List.filter_append]
  have h1 : (imgs.filter (fun e => !(e.1 == i))).filter (fun e => e.1 == i) = [] := by
    rw [List.filter_filter]
    apply List.filter_eq_nil_iff.mpr
    intro a _
    cases h : a.1 == i <;> simp [h]
  have h2 : (urls.map (fun u => (i, u))).filter (fun e => e.1 == i) =
      urls.map (fun u => (i, u)) := by
    apply List.filter_eq_self.mpr
    intro a ha
    rcases List.mem_map.mp ha with ⟨u, _, rfl⟩
    simp
  rw [h1, h2, List.nil_append, List.map_map]
  simp

theorem filter_images_replace_other (i j : ℤ) (urls : List String) (imgs : List (ℤ × String))
    (hij : i ≠ j) :
    (replace_product_images j urls imgs).filter (fun e => e.1 == i) =
      imgs.filter (fun e => e.1 == i) := by
  unfold replace_product_images
  rw [List.filter_append]
  have h2 : (urls.map (fun u => (j, u))).filter (fun e => e.1 == i) = [] := by
    apply List.filter_eq_nil_iff.mpr
    intro a ha
    rcases List.mem_map.mp ha with ⟨u, _, rfl⟩
    simp
    exact fun h => hij h.symm
  have h1 : (imgs.filter (fun e => !(e.1 == j))).filter (fun e => e.1 == i) =
      imgs.filter (fun e => e.1 == i) := by
    rw [List.filter_filter]
    apply List.filter_congr
    intro a _
    cases h : a.1 == i
    · simp [h]
    · have hai : a.1 = i := by simpa using h
      have hne : a.1 ≠ j := by rw [hai]; exact hij
      simp [h, hne]
  rw [h1, h2, List.append_nil]

theorem find?_map_touch (f : ProductRow → ProductRow) (q : ProductRow → Bool)
    (hq : ∀ r, q (f r) = q r) (l : List ProductRow) :
    (l.map (fun r => if q r then f r else r)).find? q = (l.find? q).map f := by
  induction l with
  | nil => rfl
  | cons a l ih =>
    cases ha : q a
    · rw [List.map_cons]
      simp only [ha, Bool.false_eq_true, if_false]
      rw [List.find?_cons_of_neg _ (by simp [ha]), List.find?_cons_of_neg _ (by simp [ha])]
      exact ih
    · rw [List.map_cons]
      simp only [ha, if_true]
      rw [List.find?_cons_of_pos _ (by rw [hq]; exact ha), List.find?_cons_of_pos _ ha]
      rfl

theorem find?_map_other (f : ProductRow → ProductRow) (q q' : ProductRow → Bool)
    (hq' : ∀ r, q' (f r) = q' r) (hdisj : ∀ r, q' r = true → q r = false)
    (l : List ProductRow) :
    (l.map (fun r => if q r then f r else r)).find? q' = l.find? q' := by
  induction l with
  | nil => rfl
  | cons a l ih =>
    cases ha : q' a
    · have hmap : q' (if q a then f a else a) = false := by
        cases hqa : q a <;> simp [hqa, hq', ha]
      rw [List.map_cons, List.find?_cons_of_neg _ (by simp [hmap]),
        List.find?_cons_of_neg _ (by simp [ha])]
      exact ih
    · have hqa : q a = false := hdisj a ha
      rw [List.map_cons]
      simp only [hqa, Bool.false_eq_true, if_false]
      rw [List.find?_cons_of_pos _ ha, List.find?_cons_of_pos _ ha]

theorem wfRows_cons (r : ProductRow) (l : List ProductRow) :
    wfRows (r :: l) = true ↔
      (∀ a ∈ l,
        (!(r.id == a.id) && !(r.crawler_id == a.crawler_id && r.url == a.url)) = true) ∧
      wfRows l = true := by
  simp [wfRows, List.all_eq_true]

theorem wfRows_id_inj (l : List ProductRow) (h : wfRows l = true) :
    ∀ a ∈ l, ∀ b ∈ l, a.id = b.id → a = b := by
  induction l with
  | nil =>
    intro a ha
    cases ha
  | cons r rest ih =>
    obtain ⟨hall, hrest⟩ := (wfRows_cons r rest).mp h
    intro a ha b hb heq
    rcases List.mem_cons.mp ha with rfl | ha' <;> rcases List.mem_cons.mp hb with rfl | hb'
    · rfl
    · exfalso
      have hx := hall b hb'
      simp only [Bool.and_eq_true, Bool.not_eq_true', beq_eq_false_iff_ne] at hx
      exact hx.1 heq
    · exfalso
      have hx := hall a ha'
      simp only [Bool.and_eq_true, Bool.not_eq_true', beq_eq_false_iff_ne] at hx
      exact hx.1 heq.symm
    · exact ih hrest a ha' b hb' heq

theorem wfRows_map (g : ProductRow → ProductRow)
    (hid : ∀ r, (g r).id = r.id) (hcid : ∀ r, (g r).crawler_id = r.crawler_id)
    (hurl : ∀ r, (g r).url = r.url) (l : List ProductRow) (h : wfRows l = true) :
    wfRows (l.map g) = true := by
  induction l with
  | nil => rfl
  | cons r rest ih =>
    obtain ⟨hall, hrest⟩ := (wfRows_cons r rest).mp h
    refine (wfRows_cons (g r) (rest.map g)).mpr ⟨?_, ih hrest⟩
    intro a ha
    rcases List.mem_map.mp ha with ⟨b, hb, rfl⟩
    have hx := hall b hb
    simpa [hid, hcid, hurl] using hx

theorem wfRows_append_singleton (l : List ProductRow) (x : ProductRow)
    (hl : wfRows l = true)
    (hx : ∀ a ∈ l,
      (!(a.id == x.id) && !(a.crawler_id == x.crawler_id && a.url == x.url)) = true) :
    wfRows (l ++ [x]) = true := by
  induction l with
  | nil => simp [wfRows]
  | cons r rest ih =>
    obtain ⟨hall, hrest⟩ := (wfRows_cons r rest).mp hl
    refine (wfRows_cons r (rest ++ [x])).mpr
      ⟨?_, ih hrest (fun a ha => hx a (List.mem_cons_of_mem _ ha))⟩
    intro a ha
    rcases List.mem_append.mp ha with h | h
    · exact hall a h
    · obtain rfl := List.mem_singleton.mp h
      exact hx r (List.mem_cons_self _ _)

theorem wfState_applyUpsert (now : ℤ) (p : NewProduct) (st : ProductsState)
    (h : wfState st = true) : wfState (applyUpsert now st p) = true := by
  obtain ⟨hrows, hbound⟩ : wfRows st.rows = true ∧
      st.rows.all (fun r => decide (r.id < st.nextId)) = true := by
    simpa [wfState, Bool.and_eq_true] using h
  have hbound' : ∀ r ∈ st.rows, r.id < st.nextId := by
    simpa [List.all_eq_true] using hbound
  unfold applyUpsert
  rcases hf : st.rows.find? (keyMatches p) with _ | r
  · simp only [wfState, Bool.and_eq_true, List.all_eq_true]
    constructor
    · apply wfRows_append_singleton _ _ hrows
      intro a ha
      have h1 : a.id ≠ st.nextId := ne_of_lt (hbound' a ha)
      have h2 : keyMatches p a = false := by
        have hn := List.find?_eq_none.mp hf a ha
        simpa using hn
      simp only [keyMatches, rowKeyIs] at h2
      simp only [insertRow, Bool.and_eq_true, Bool.not_eq_true', beq_eq_false_iff_ne]
      exact ⟨h1, by simpa using h2⟩
    · intro r' hr'
      rcases List.mem_append.mp hr' with hh | hh
      · have := hbound' r' hh
        show decide (r'.id < st.nextId + 1) = true
        rw [decide_eq_true_eq]
        omega
      · obtain rfl := List.mem_singleton.mp hh
        simp [insertRow]
  · simp only [wfState, Bool.and_eq_true, List.all_eq_true]
    constructor
    · apply wfRows_map
      · intro r'
        by_cases hq : keyMatches p r' = true <;> simp [hq, overwriteRow]
      · intro r'
        by_cases hq : keyMatches p r' = true <;> simp [hq, overwriteRow]
      · intro r'
        by_cases hq : keyMatches p r' = true <;> simp [hq, overwriteRow]
      · exact hrows
    · intro r' hr'
      rcases List.mem_map.mp hr' with ⟨b, hb, rfl⟩
      have hbb := hbound' b hb
      by_cases hq : keyMatches p b = true <;> simp [hq, overwriteRow] <;> exact hbb

theorem preservedCols_applyUpsert (now : ℤ) (p : NewProduct) (st : ProductsState)
    (cid : ℤ) (url : String) :
    preservedCols cid url (applyUpsert now st p) = preservedCols cid url st := by
  unfold applyUpsert
  by_cases hk : prodKeyIs cid url p = true
  · obtain ⟨h1, h2⟩ : p.crawler_id = cid ∧ p.url = url := by
      simpa [prodKeyIs] using hk
    subst h1
    subst h2
    rcases hf : st.rows.find? (keyMatches p) with _ | r
    · have hf' : st.rows.find? (rowKeyIs p.crawler_id p.url) = none := hf
      unfold preservedCols
      rw [List.find?_append, hf']
      have hpos : rowKeyIs p.crawler_id p.url (insertRow now p st.nextId) = true := by
        simp [rowKeyIs, insertRow]
      rw [List.find?_cons_of_pos _ hpos]
      simp [Option.or, insertRow]
    · have hf' : st.rows.find? (rowKeyIs p.crawler_id p.url) = some r := hf
      unfold preservedCols
      simp only [keyMatches]
      rw [find?_map_touch (overwriteRow now p) (rowKeyIs p.crawler_id p.url)
        (fun r' => by simp [overwriteRow, rowKeyIs]) st.rows, hf']
      simp [overwriteRow]
  · have hne : ¬(p.crawler_id = cid ∧ p.url = url) := by
      simpa [prodKeyIs] using hk
    rcases hf : st.rows.find? (keyMatches p) with _ | r
    · unfold preservedCols
      rw [List.find?_append]
      have hnew : rowKeyIs cid url (insertRow now p st.nextId) = false := by
        simp only [rowKeyIs, insertRow]
        cases hc : p.crawler_id == cid
        · simp
        · cases hu : p.url == url
          · simp
          · exfalso
            exact hne ⟨by simpa using hc, by simpa using hu⟩
      cases hold : st.rows.find? (rowKeyIs cid url) with
      | some r0 => simp [Option.or]
      | none =>
        rw [List.find?_cons_of_neg _ (by simp [hnew])]
        simp [Option.or, List.find?]
    · unfold preservedCols
      simp only [keyMatches]
      rw [find?_map_other (overwriteRow now p) (rowKeyIs p.crawler_id p.url) (rowKeyIs cid url)
        (fun r' => by simp [overwriteRow, rowKeyIs])
        (fun r' hr' => ?_) st.rows]
      obtain ⟨hc, hu⟩ : r'.crawler_id = cid ∧ r'.url = url := by simpa [rowKeyIs] using hr'
      simp only [rowKeyIs, hc, hu]
      cases hc2 : cid == p.crawler_id
      · simp
      · cases hu2 : url == p.url
        · simp
        · exfalso
          exact hne ⟨(beq_iff_eq.mp hc2).symm, (beq_iff_eq.mp hu2).symm⟩

theorem lookupObs_applyUpsert (now : ℤ) (p : NewProduct) (st : ProductsState)
    (cid : ℤ) (url : String) (hwf : wfState st = true) :
    lookupObs cid url (applyUpsert now st p) =
      if prodKeyIs cid url p = true then
        some (upsertedObs now p (preservedCols cid url st))
      else lookupObs cid url st := by
  obtain ⟨hrows, hbound⟩ : wfRows st.rows = true ∧
      st.rows.all (fun r => decide (r.id < st.nextId)) = true := by
    simpa [wfState, Bool.and_eq_true] using hwf
  have hbound' : ∀ r ∈ st.rows, r.id < st.nextId := by
    simpa [List.all_eq_true] using hbound
  unfold applyUpsert
  by_cases hk : prodKeyIs cid url p = true
  · rw [if_pos hk]
    obtain ⟨h1, h2⟩ : p.crawler_id = cid ∧ p.url = url := by
      simpa [prodKeyIs] using hk
    subst h1
    subst h2
    rcases hf : st.rows.find? (keyMatches p) with _ | r
    · have hf' : st.rows.find? (rowKeyIs p.crawler_id p.url) = none := hf
      unfold lookupObs preservedCols
      rw [List.find?_append, hf']
      have hpos : rowKeyIs p.crawler_id p.url (insertRow now p st.nextId) = true := by
        simp [rowKeyIs, insertRow]
      rw [List.find?_cons_of_pos _ hpos]
      simp [Option.or, rowObs, insertRow, upsertedObs, filter_images_replace_same]
    · have hf' : st.rows.find? (rowKeyIs p.crawler_id p.url) = some r := hf
      unfold lookupObs preservedCols
      simp only [keyMatches]
      rw [find?_map_touch (overwriteRow now p) (rowKeyIs p.crawler_id p.url)
        (fun r' => by simp [overwriteRow, rowKeyIs]) st.rows, hf']
      simp [rowObs, overwriteRow, upsertedObs, filter_images_replace_same]
  · rw [if_neg hk]
    have hne : ¬(p.crawler_id = cid ∧ p.url = url) := by
      simpa [prodKeyIs] using hk
    have hdisj : ∀ r', rowKeyIs cid url r' = true →
        rowKeyIs p.crawler_id p.url r' = false := by
      intro r' hr'
      obtain ⟨hc, hu⟩ : r'.crawler_id = cid ∧ r'.url = url := by
        simpa [rowKeyIs] using hr'
      simp only [rowKeyIs, hc, hu]
      cases hc2 : cid == p.crawler_id
      · simp
      · cases hu2 : url == p.url
        · simp
        · exfalso
          exact hne ⟨(beq_iff_eq.mp hc2).symm, (beq_iff_eq.mp hu2).symm⟩
    rcases hf : st.rows.find? (keyMatches p) with _ | r
    · unfold lookupObs
      rw [List.find?_append]
      have hnew : rowKeyIs cid url (insertRow now p st.nextId) = false := by
        simp only [rowKeyIs, insertRow]
        cases hc : p.crawler_id == cid
        · simp
        · cases hu : p.url == url
          · simp
          · exfalso
            exact hne ⟨by simpa using hc, by simpa using hu⟩
      cases hold : st.rows.find? (rowKeyIs cid url) with
      | none =>
        rw [List.find?_cons_of_neg _ (by simp [hnew])]
        simp [Option.or, List.find?]
      | some r0 =>
        have hr0 : r0 ∈ st.rows := List.mem_of_find?_eq_some hold
        have hid : r0.id ≠ st.nextId := ne_of_lt (hbound' r0 hr0)
        simp only [Option.or, Option.map_some']
        unfold rowObs
        rw [filter_images_replace_other r0.id st.nextId p.images st.images hid]
    · unfold lookupObs
      simp only [keyMatches]
      rw [find?_map_other (overwriteRow now p) (rowKeyIs p.crawler_id p.url) (rowKeyIs cid url)
        (fun r' => by simp [overwriteRow, rowKeyIs]) hdisj st.rows]
      cases hold : st.rows.find? (rowKeyIs cid url) with
      | none => simp
      | some r0 =>
        have hr0 : r0 ∈ st.rows := List.mem_of_find?_eq_some hold
        have hrr : r ∈ st.rows := List.mem_of_find?_eq_some hf
        have hkey_r : rowKeyIs p.crawler_id p.url r = true := List.find?_some hf
        have hkey_r0 : rowKeyIs cid url r0 = true := List.find?_some hold
        have hner : r0 ≠ r := by
          intro heq
          subst heq
          obtain ⟨hc, hu⟩ : r0.crawler_id = p.crawler_id ∧ r0.url = p.url := by
            simpa [rowKeyIs] using hkey_r
          obtain ⟨hc2, hu2⟩ : r0.crawler_id = cid ∧ r0.url = url := by
            simpa [rowKeyIs] using hkey_r0
          exact hne ⟨hc.symm.trans hc2, hu.symm.trans hu2⟩
        have hidne : r0.id ≠ r.id :=
          fun hid => hner (wfRows_id_inj st.rows hrows r0 hr0 r hrr hid)
        simp only [Option.map_some']
        unfold rowObs
        rw [filter_images_replace_other r0.id r.id p.images st.images hidne]

theorem wfState_update_products (now : ℤ) (R : List NewProduct) (st : ProductsState)
    (h : wfState st = true) : wfState (update_products now R st) = true := by
  induction R generalizing st with
  | nil => exact h
  | cons p R' ih =>
    show wfState (update_products now R' (applyUpsert now st p)) = true
    exact ih _ (wfState_applyUpsert now p st h)

theorem preservedCols_update_products (now : ℤ) (R : List NewProduct) (st : ProductsState)
    (cid : ℤ) (url : String) :
    preservedCols cid url (update_products now R st) = preservedCols cid url st := by
  induction R generalizing st with
  | nil => rfl
  | cons p R' ih =>
    show preservedCols cid url (update_products now R' (applyUpsert now st p)) = _
    rw [ih (applyUpsert now st p), preservedCols_applyUpsert]

theorem lookupObs_update_products (now : ℤ) (R : List NewProduct) (st : ProductsState)
    (cid : ℤ) (url : String) (hwf : wfState st = true) :
    lookupObs cid url (update_products now R st) =
      match lastUpsert R cid url with
      | some p => some (upsertedObs now p (preservedCols cid url st))
      | none => lookupObs cid url st := by
  induction R generalizing st with
  | nil => rfl
  | cons p R' ih =>
    have hstep : lookupObs cid url (update_products now (p :: R') st) =
        lookupObs cid url (update_products now R' (applyUpsert now st p)) := rfl
    rw [hstep, ih _ (wfState_applyUpsert now p st hwf)]
    have hlast : lastUpsert (p :: R') cid url =
        match lastUpsert R' cid url with
        | some q => some q
        | none => if prodKeyIs cid url p = true then some p else none := by
      unfold lastUpsert
      rw [List.reverse_cons, List.find?_append]
      cases h : R'.reverse.find? (prodKeyIs cid url)
      · cases hp : prodKeyIs cid url p <;> simp [Option.or, List.find?, hp]
      · simp [Option.or]
    rw [hlast]
    cases h : lastUpsert R' cid url
    · simp only []
      rw [lookupObs_applyUpsert now p st cid url hwf]
      by_cases hp : prodKeyIs cid url p = true <;> simp [hp]
    · simp only []
      rw [preservedCols_applyUpsert]

/-- Claim **C9**.  Patch-Crawl persistence is idempotent: over a well-formed
store, running the `update_products` upsert transaction twice over the same
batch leaves, for every `(crawler_id, url)` natural key, exactly the same
persisted observation (all non-key columns, timestamp, and the wholesale-
replaced image list) as running it once; and each run touches `updated_at`,
so when the run's time is not before any stored timestamp, the per-key
timestamps are monotonically non-decreasing. -/
theorem update_products_idempotent (now1 now2 : ℤ) (R : List NewProduct)
    (st : ProductsState) (cid : ℤ) (url : String) (hwf : wfState st = true) :
    lookupObs cid url (update_products now2 R (update_products now1 R st)) =
      lookupObs cid url (update_products now2 R st) ∧
    ((∀ r ∈ st.rows, r.updated_at ≤ now2) →
      ∀ o o', lookupObs cid url st = some o →
        lookupObs cid url (update_products now2 R st) = some o' →
        o.updated_at ≤ o'.updated_at) := by
  have hwf1 := wfState_update_products now1 R st hwf
  constructor
  · rw [lookupObs_update_products now2 R _ cid url hwf1,
      lookupObs_update_products now2 R st cid url hwf,
      preservedCols_update_products now1 R st cid url]
    cases h : lastUpsert R cid url
    · simp only []
      rw [lookupObs_update_products now1 R st cid url hwf, h]
    · simp only []
  · intro hmono o o' ho ho'
    rw [lookupObs_update_products now2 R st cid url hwf] at ho'
    cases h : lastUpsert R cid url
    · rw [h] at ho'
      simp only [] at ho'
      rw [ho] at ho'
      obtain rfl := Option.some.inj ho'
      exact le_refl _
    · rw [h] at ho'
      simp only [] at ho'
      obtain rfl := Option.some.inj ho'
      unfold lookupObs at ho
      rcases hfind : st.rows.find? (rowKeyIs cid url) with _ | r
      · rw [hfind] at ho
        cases ho
      · rw [hfind] at ho
        obtain rfl := Option.some.inj ho
        have hr := List.mem_of_find?_eq_some hfind
        have hle := hmono r hr
        simpa [upsertedObs, rowObs] using hle

/-- Claim **C9** (witness for `update_products_idempotent`): one patch batch over
the fixture store, run twice at a later time, observed at its key. -/
theorem update_products_idempotent_witness :
    lookupObs 1 "url4" (update_products 200 [newProdFix] (update_products 150 [newProdFix] stFix)) =
      lookupObs 1 "url4" (update_products 200 [newProdFix] stFix) ∧
    (rowObs stFix rowAuto).updated_at ≤
      (upsertedObs 200 newProdFix (some 9, CategoryAssignmentSource.automatic, none)).updated_at := by
  have h := update_products_idempotent 150 200 [newProdFix] stFix 1 "url4" (by decide)
  exact ⟨h.1, h.2 (by decide) (rowObs stFix rowAuto)
    (upsertedObs 200 newProdFix (some 9, CategoryAssignmentSource.automatic, none))
    (by decide) (by decide)⟩
